import Mathlib

/-!
# svelte-dev-helper: the instance registry and the DOM proxy adapter

A shallow embedding of `src/lib/registry.js` and `src/lib/proxy-adapter-dom.js`.

* The registry table `_items` is a plain object: a property read sees its own properties and
  then its prototype chain (`Object.prototype`, and the entry that `set("__proto__", v)` puts in
  front of it).  The `instances` arrays live in a heap and entries hold references to them, so
  an array can be shared.
* The proxy adapter is a state machine over its two fields `cmp` and `insertionPoint`.  The
  functions it receives from its owning `instance` (`createComponent`, `rollback`,
  `captureState`, `restoreState`) and the `$destroy` method of a component are parameters that
  act on an external environment; every call the adapter makes to them is recorded in a trace.
  The collaborators do not call back into the adapter.  `createComponent`, `rollback` and
  `restoreState` may throw; `captureState` and `$destroy` return.
* The host tree is the part of the DOM the adapter uses: `createComment`, `insertBefore`,
  `parentNode` and `removeChild`.
* `doCreateComponent` is recursive without a bound in the source; the embedding carries a fuel
  argument that bounds the recursion depth and reports `Outcome.diverged` when it runs out.
-/


/-! ## `src/lib/registry.js` -/

namespace registry

/-- An implementation stored under `rollback` or `component`: a component class, which is a
truthy value; `none` stands for `null`. -/
abbrev Impl := String

/-- The identity of an array object. -/
abbrev Ref := Nat

/-- A registered proxy object.  It carries the `id` it is filed under; `ref` is the identity of
the object, so `==` on two instances is equality of these records. -/
structure Instance where
  id : String
  ref : Nat
deriving DecidableEq, Repr

/-- One entry object, as built by `set`.  Its `instances` field holds a reference to an array,
which other entries and the caller may hold as well. -/
structure Entry where
  rollback : Option Impl
  component : Option Impl
  instances : Ref
deriving DecidableEq, Repr

/-- The second argument of `set`: an object on which each of the three fields is either present
(`some`) or missing (`none`); a present `instances` field is a reference to an existing
array. -/
structure Value where
  rollback : Option (Option Impl)
  component : Option (Option Impl)
  instances : Option Ref
deriving DecidableEq, Repr

/-- A value that reading a property of the table can give: besides `undefined` and an entry, a
field of an entry that has become the prototype of the table (`null`, an implementation, an
array), a function inherited from `Object.prototype`, or `Object.prototype` itself. -/
inductive JsVal where
  | undefined
  | null
  | impl (i : Impl)
  | array (ref : Ref)
  | entry (e : Entry)
  | builtin (name : String)
  | objectPrototype
deriving DecidableEq, Repr

/-- Truthiness: `undefined` and `null` are falsy, objects and functions are truthy. -/
def JsVal.truthy : JsVal → Bool
  | .undefined => false
  | .null => false
  | _ => true

/-- The object `this._items` and the arrays in reach: the own properties of the table, its
prototype when `set` has replaced it by an entry (`none` is `Object.prototype`), the contents of
every array, and the reference the next array literal gets. -/
structure Items where
  own : String → Option Entry
  proto : Option Entry
  arrays : Ref → List Instance
  next : Ref

/-- The table of a new registry, `this._items = {}`, with no array allocated yet. -/
def empty : Items := { own := fun _ => none, proto := none, arrays := fun _ => [], next := 0 }

/-- The names of the functions every object inherits from `Object.prototype`. -/
def objectPrototypeKeys : List String :=
  ["constructor", "__defineGetter__", "__defineSetter__", "hasOwnProperty",
    "__lookupGetter__", "__lookupSetter__", "isPrototypeOf", "propertyIsEnumerable",
    "toString", "valueOf", "toLocaleString"]

/-- A property read that has reached `Object.prototype`: the accessor `__proto__` gives the
prototype of the table (`receiverProto`), the inherited functions give themselves, and every
other name gives `undefined`. -/
def fromObjectPrototype (receiverProto : JsVal) (k : String) : JsVal :=
  if k = "__proto__" then receiverProto
  else if k ∈ objectPrototypeKeys then .builtin k
  else .undefined

/-- A property read on the prototype chain of the table: the fields of the entry that `set` has
made the prototype, if any, then `Object.prototype`. -/
def inherited (items : Items) (k : String) : JsVal :=
  match items.proto with
  | some e =>
    if k = "rollback" then
      (match e.rollback with
        | some i => .impl i
        | none => .null)
    else if k = "component" then
      (match e.component with
        | some i => .impl i
        | none => .null)
    else if k = "instances" then .array e.instances
    else fromObjectPrototype (.entry e) k
  | none => fromObjectPrototype .objectPrototype k

/-- The expression `this._items[k]`: the own property `k` of the table when there is one,
otherwise what the prototype chain gives. -/
def lookup (items : Items) (k : String) : JsVal :=
  match items.own k with
  | some e => .entry e
  | none => inherited items k

/-- The defaults object literal of `set`; its `instances: []` is a new array, at `fresh`. -/
def defaults (fresh : Ref) : Entry := { rollback := none, component := none, instances := fresh }

/-- The call `Object.assign(defaults, v)`: every field present on `v` overwrites the default;
a present `instances` field is copied by reference. -/
def assign (d : Entry) (v : Value) : Entry :=
  { rollback := v.rollback.getD d.rollback
    component := v.component.getD d.component
    instances := v.instances.getD d.instances }

/-- The method `set(k, v)`.  The assignment `this._items[k] = entry` writes an own property,
except for `k = "__proto__"` on a table with no such own property: that assignment reaches the
setter of `Object.prototype` and replaces the prototype of the table by the entry. -/
def set (k : String) (v : Value) (items : Items) : Items :=
  let fresh := items.next
  let entry := assign (defaults fresh) v
  let arrays := Function.update items.arrays fresh []
  if k = "__proto__" ∧ items.own k = none then
    { items with proto := some entry, arrays := arrays, next := fresh + 1 }
  else
    { items with own := Function.update items.own k (some entry), arrays := arrays,
                 next := fresh + 1 }

/-- What `get` can return: a value read from the table, or the table itself. -/
inductive GetResult where
  | value (v : JsVal)
  | items (t : Items)

/-- The method `get(k)`, `k ? this._items[k] || undefined : this._items`.  The argument is `none`
when no key is passed; a string is truthy exactly when it is not empty. -/
def get (k : Option String) (items : Items) : GetResult :=
  match k with
  | none => .items items
  | some key =>
    if key = "" then .items items
    else if (lookup items key).truthy then .value (lookup items key)
    else .value .undefined

/-- What reading the property `.instances` of a value gives: the contents of an array, another
value, or a `TypeError`. -/
inductive InstancesRead where
  | list (xs : List Instance)
  | value (v : JsVal)
  | typeError
deriving DecidableEq, Repr

/-- The expression `r.instances` on a result `r` of `get`, with the arrays as they are in
`heap`: the array of an entry, a `TypeError` on `undefined` and `null`, `undefined` on the other
values, and on the table itself whatever `this._items["instances"]` is. -/
def GetResult.instances (heap : Items) : GetResult → InstancesRead
  | .value (.entry e) => .list (heap.arrays e.instances)
  | .value .undefined => .typeError
  | .value .null => .typeError
  | .value _ => .value .undefined
  | .items t =>
    match lookup t "instances" with
    | .array ref => .list (heap.arrays ref)
    | v => .value v

/-- How a registry method ends: `threw` is the error when it throws, and `items` is the table
it leaves. -/
structure Result where
  threw : Option String
  items : Items

/-- The method `registerInstance(instance)`:
`this._items[id] && this._items[id].instances.push(instance)`.  On an entry the instance is
pushed onto the array the entry points to; a falsy value ends the expression; on any other
truthy value `.instances` is `undefined` and the call of `push` throws a `TypeError`. -/
def registerInstance (inst : Instance) (items : Items) : Result :=
  let id := inst.id
  match lookup items id with
  | .entry e =>
    { threw := none
      items :=
        { items with
          arrays :=
            Function.update items.arrays e.instances (items.arrays e.instances ++ [inst]) } }
  | v =>
    if v.truthy then { threw := some "TypeError", items := items }
    else { threw := none, items := items }

/-- The loop of `Array.prototype.forEach` with the callback of `deRegisterInstance`, on the live
array `arr`.  The number of indices to visit is fixed when the loop starts (`remaining` of them
are left), the index `idx` advances by one at every step whatever the callback did, an index
that is no longer in the array is skipped, and the callback removes the element at `idx` with
`splice(idx, 1)` when it is `==` to `inst`. -/
def forEachSplice (inst : Instance) : Nat → Nat → List Instance → List Instance
  | 0, _, arr => arr
  | remaining + 1, idx, arr =>
    match arr.get? idx with
    | none => forEachSplice inst remaining (idx + 1) arr
    | some comp =>
      if comp = inst then forEachSplice inst remaining (idx + 1) (arr.eraseIdx idx)
      else forEachSplice inst remaining (idx + 1) arr

/-- The method `deRegisterInstance(instance)`:
`this._items[id] && this._items[id].instances.forEach(...)`.  On an entry the loop runs on the
array the entry points to, in place; a falsy value ends the expression; on any other truthy
value `.instances` is `undefined` and the call of `forEach` throws a `TypeError`. -/
def deRegisterInstance (inst : Instance) (items : Items) : Result :=
  let id := inst.id
  match lookup items id with
  | .entry e =>
    { threw := none
      items :=
        { items with
          arrays :=
            Function.update items.arrays e.instances
              (forEachSplice inst (items.arrays e.instances).length 0
                (items.arrays e.instances)) } }
  | v =>
    if v.truthy then { threw := some "TypeError", items := items }
    else { threw := none, items := items }

end registry

/-! ## The host tree -/

/-- A node of the host tree (a DOM node). -/
abbrev Node := Nat

/-- A component object returned by the collaborator `createComponent`. -/
abbrev Handle := Nat

/-- A thrown value. -/
abbrev Err := String

/-- The host tree: for each node its `parentNode` and its ordered `childNodes`, the text of the
comment nodes created so far, and the next node `document` will create. -/
structure Dom where
  parentNode : Node → Option Node
  childNodes : Node → List Node
  data : Node → Option String
  next : Node

namespace Dom

/-- The call `document.createComment(text)`: a new node that has no parent yet. -/
def createComment (dom : Dom) (text : String) : Node × Dom :=
  (dom.next,
    { dom with
      parentNode := Function.update dom.parentNode dom.next none
      data := Function.update dom.data dom.next (some text)
      next := dom.next + 1 })

/-- A child list with `node` put immediately before the child `anchor`. -/
def insertBeforeIn (node anchor : Node) : List Node → List Node
  | [] => [node]
  | c :: cs => if c = anchor then node :: c :: cs else c :: insertBeforeIn node anchor cs

/-- The call `target.insertBefore(node, anchor)` for a node that has no parent: the node becomes
the last child of `target` when `anchor` is absent, the child right before `anchor` when
`anchor` is a child of `target`, and the call throws `NotFoundError` otherwise. -/
def insertBefore (dom : Dom) (target node : Node) (anchor : Option Node) : Except Err Dom :=
  match anchor with
  | none =>
    .ok { dom with
          parentNode := Function.update dom.parentNode node (some target)
          childNodes := Function.update dom.childNodes target (dom.childNodes target ++ [node]) }
  | some a =>
    if a ∈ dom.childNodes target then
      .ok { dom with
            parentNode := Function.update dom.parentNode node (some target)
            childNodes :=
              Function.update dom.childNodes target (insertBeforeIn node a (dom.childNodes target)) }
    else .error "NotFoundError"

/-- The call `parent.removeChild(child)`. -/
def removeChild (dom : Dom) (parent child : Node) : Dom :=
  { dom with
    parentNode := Function.update dom.parentNode child none
    childNodes :=
      Function.update dom.childNodes parent
        ((dom.childNodes parent).filter (fun c => decide (c ≠ child))) }

end Dom

/-- The helper `removeElement`: `el && el.parentNode && el.parentNode.removeChild(el)`. -/
def removeElement (el : Option Node) (dom : Dom) : Dom :=
  match el with
  | none => dom
  | some node =>
    match dom.parentNode node with
    | none => dom
    | some parent => dom.removeChild parent node

/-! ## `src/lib/proxy-adapter-dom.js` -/

/-- Construction options: the mount point `target`, `anchor` and all the other keys. -/
structure Options where
  target : Option Node
  anchor : Option Node
  rest : List (String × String)
deriving DecidableEq, Repr

/-- A value returned by `captureState`: `undefined`, `null`, or an object with its properties. -/
inductive Snapshot where
  | undefined
  | null
  | object (props : List (String × String))
deriving DecidableEq, Repr

/-- The test `if (restore)`: `undefined` and `null` are falsy, every object is truthy. -/
def Snapshot.truthy : Snapshot → Bool
  | .undefined => false
  | .null => false
  | .object _ => true

/-- The environment outside the adapter: the host tree, the process-wide registry table, and
whatever else the collaborators keep (`ext`). -/
structure Env (X : Type) where
  dom : Dom
  registry : registry.Items
  ext : X

/-- The object `this.instance`, with the `$destroy` method of component handles (`destroy`).
A collaborator takes the environment and returns the environment it leaves; `createComponent`,
`rollback` and `restoreState` either return or throw. -/
structure ProxyInstance (X : Type) where
  initialOptions : Options
  debugName : String
  createComponent : Options → Env X → Except Err Handle × Env X
  rollback : Err → Env X → Except Err Unit × Env X
  captureState : Option Handle → Env X → Snapshot × Env X
  restoreState : Handle → Snapshot → Env X → Except Err Unit × Env X
  destroy : Handle → Env X → Env X

/-- A call made by the adapter to a collaborator or to `console.log`. -/
inductive Event where
  | createComponent (options : Options)
  | restoreState (cmp : Handle) (restore : Snapshot)
  | rollback (err : Err)
  | captureState (cmp : Option Handle)
  | destroy (cmp : Handle)
  | log (msg : String)
deriving DecidableEq, Repr

/-- The environment together with the calls made so far, oldest first. -/
structure World (X : Type) where
  env : Env X
  trace : List Event

/-- How a method call ends: it returns, it throws, or the fuel ran out. -/
inductive Outcome where
  | returned
  | threw (err : Err)
  | diverged
deriving DecidableEq, Repr

/-- The fields of a `ProxyAdapterDom` object that its methods write. -/
structure ProxyAdapterDom where
  cmp : Option Handle
  insertionPoint : Option Node
deriving DecidableEq, Repr

/-- The result of a method call: how it ended, the adapter and the world it leaves. -/
structure Run (X : Type) where
  outcome : Outcome
  self : ProxyAdapterDom
  world : World X

namespace ProxyAdapterDom

variable {X : Type}

/-- The adapter built by the constructor. -/
def new : ProxyAdapterDom := { cmp := none, insertionPoint := none }

/-- The method `afterMount(target, anchor)`. -/
def afterMount (inst : ProxyInstance X) (target : Node) (anchor : Option Node)
    (self : ProxyAdapterDom) (w : World X) : Run X :=
  match self.insertionPoint with
  | some _ => ⟨.returned, self, w⟩
  | none =>
    let created := w.env.dom.createComment inst.debugName
    let self1 := { self with insertionPoint := some created.1 }
    match created.2.insertBefore target created.1 anchor with
    | .error err => ⟨.threw err, self1, { w with env := { w.env with dom := created.2 } }⟩
    | .ok dom => ⟨.returned, self1, { w with env := { w.env with dom := dom } }⟩

/-- The catch block of `doCreateComponent`: `rollback(err)`, then the recursive call `retry`
when `rollback` returned. -/
def catchBlock (inst : ProxyInstance X) (err : Err)
    (retry : ProxyAdapterDom → World X → Run X) (self : ProxyAdapterDom) (w : World X) : Run X :=
  match inst.rollback err w.env with
  | (.error fatal, env) => ⟨.threw fatal, self, ⟨env, w.trace ++ [Event.rollback err]⟩⟩
  | (.ok _, env) => retry self ⟨env, w.trace ++ [Event.rollback err]⟩

/-- The method `doCreateComponent(options, restore)`, with the recursion depth bounded by the
fuel argument. -/
def doCreateComponent (inst : ProxyInstance X) (options : Options) (restore : Snapshot) :
    Nat → ProxyAdapterDom → World X → Run X
  | 0, self, w => ⟨.diverged, self, w⟩
  | fuel + 1, self, w =>
    let called := w.trace ++ [Event.createComponent options]
    match inst.createComponent options w.env with
    | (.error err, env) =>
      catchBlock inst err (doCreateComponent inst options restore fuel) self ⟨env, called⟩
    | (.ok cmp, env) =>
      let self1 := { self with cmp := some cmp }
      if restore.truthy then
        match inst.restoreState cmp restore env with
        | (.error err, env1) =>
          catchBlock inst err (doCreateComponent inst options restore fuel) self1
            ⟨env1, called ++ [Event.restoreState cmp restore]⟩
        | (.ok _, env1) => ⟨.returned, self1, ⟨env1, called ++ [Event.restoreState cmp restore]⟩⟩
      else ⟨.returned, self1, ⟨env, called⟩⟩

/-- The method `createComponent(target, anchor)`. -/
def createComponent (inst : ProxyInstance X) (fuel : Nat) (target anchor : Option Node)
    (self : ProxyAdapterDom) (w : World X) : Run X :=
  let options := { inst.initialOptions with target := target, anchor := anchor }
  let captured := inst.captureState self.cmp w.env
  doCreateComponent inst options captured.1 fuel self
    ⟨captured.2, w.trace ++ [Event.captureState self.cmp]⟩

/-- The method `init()`. -/
def init (inst : ProxyInstance X) (fuel : Nat) (self : ProxyAdapterDom) (w : World X) : Run X :=
  let target := inst.initialOptions.target
  let anchor := inst.initialOptions.anchor
  let r := createComponent inst fuel target anchor self w
  match r.outcome with
  | .returned =>
    match target with
    | some t => afterMount inst t anchor r.self r.world
    | none => r
  | _ => r

/-- The method `destroyComponent(removeInsertionPoint)`; an omitted argument is `false`. -/
def destroyComponent (inst : ProxyInstance X) (removeInsertionPoint : Bool)
    (self : ProxyAdapterDom) (w : World X) : Run X :=
  let r1 : ProxyAdapterDom × World X :=
    match self.cmp with
    | some cmp =>
      ({ self with cmp := none }, ⟨inst.destroy cmp w.env, w.trace ++ [Event.destroy cmp]⟩)
    | none => (self, w)
  if removeInsertionPoint then
    match r1.1.insertionPoint with
    | some ip =>
      ⟨.returned, { r1.1 with insertionPoint := none },
        { r1.2 with env := { r1.2.env with dom := removeElement (some ip) r1.2.env.dom } }⟩
    | none => ⟨.returned, r1.1, r1.2⟩
  else ⟨.returned, r1.1, r1.2⟩

/-- The method `dispose()`. -/
def dispose (inst : ProxyInstance X) (self : ProxyAdapterDom) (w : World X) : Run X :=
  let removeInsertionPoint := true
  destroyComponent inst removeInsertionPoint self w

/-- The message `rerender` logs when there is no component. -/
def staleMessage : String := "Trying to rerender a destroyed component?"

/-- The message of the error `rerender` throws when there is no insertion point. -/
def missingInsertionPoint : Err := "Cannot rerender: Missing insertion point"

/-- The method `rerender()`. -/
def rerender (inst : ProxyInstance X) (fuel : Nat) (self : ProxyAdapterDom) (w : World X) :
    Run X :=
  match self.cmp with
  | none => ⟨.returned, self, { w with trace := w.trace ++ [Event.log staleMessage] }⟩
  | some _ =>
    match self.insertionPoint with
    | none => ⟨.threw missingInsertionPoint, self, w⟩
    | some ip =>
      let r := destroyComponent inst false self w
      createComponent inst fuel (r.world.env.dom.parentNode ip) (some ip) r.self r.world

end ProxyAdapterDom

/-! ## Callers and sample collaborators used to exercise the methods -/

namespace ProxyAdapterDom

variable {X : Type}

/-- A caller that calls `afterMount` once for each `(target, anchor)` of a list, in order, and
stops at the first call that does not return. -/
def afterMountCalls (inst : ProxyInstance X) :
    List (Node × Option Node) → ProxyAdapterDom → World X → Run X
  | [], self, w => ⟨.returned, self, w⟩
  | (target, anchor) :: rest, self, w =>
    match (afterMount inst target anchor self w).outcome with
    | .returned =>
      afterMountCalls inst rest (afterMount inst target anchor self w).self
        (afterMount inst target anchor self w).world
    | _ => afterMount inst target anchor self w

/-- The collaborator `createComponent`, called again and again with `options` from the
environment `env` and with `rollback` run on every error in between, throws the errors `errs`
on its first calls and on the call after them returns the component `cmp`, leaving the
environment `last`. -/
inductive Attempts (inst : ProxyInstance X) (options : Options) :
    Env X → List Err → Handle → Env X → Prop where
  | success {env last : Env X} {cmp : Handle} :
      inst.createComponent options env = (.ok cmp, last) → Attempts inst options env [] cmp last
  | failure {env env1 last : Env X} {err : Err} {errs : List Err} {cmp : Handle} :
      inst.createComponent options env = (.error err, env1) →
      Attempts inst options (inst.rollback err env1).2 errs cmp last →
      Attempts inst options env (err :: errs) cmp last

end ProxyAdapterDom

namespace Sample

/-- A host tree with a container `0` whose only child is the node `1`. -/
def dom : Dom :=
  { parentNode := fun n => if n = 1 then some 0 else none
    childNodes := fun n => if n = 0 then [1] else []
    data := fun _ => none
    next := 2 }

/-- The environment around `dom`: an empty registry and a counter of `createComponent` calls. -/
def env : Env Nat := { dom := dom, registry := registry.empty, ext := 0 }

/-- The world with no call made yet. -/
def world : World Nat := { env := env, trace := [] }

/-- Options that mount into the container `0`, before its child `1`. -/
def mountOptions : Options := { target := some 0, anchor := some 1, rest := [("props", "p")] }

/-- Options with no target. -/
def detachedOptions : Options := { target := none, anchor := none, rest := [("props", "p")] }

/-- Collaborators whose `createComponent` throws on its first `failures` calls and then returns
the component `100 + n` on call `n + 1`; `rollback` returns, `captureState` gives an object for a
component and `undefined` for `null`, `restoreState` returns. -/
def flaky (failures : Nat) (initialOptions : Options) : ProxyInstance Nat :=
  { initialOptions := initialOptions
    debugName := "App"
    createComponent := fun _ env =>
      if env.ext < failures then (.error "broken", { env with ext := env.ext + 1 })
      else (.ok (100 + env.ext), { env with ext := env.ext + 1 })
    rollback := fun _ env => (.ok (), env)
    captureState := fun cmp env =>
      match cmp with
      | some _ => (.object [("count", "1")], env)
      | none => (.undefined, env)
    restoreState := fun _ _ env => (.ok (), env)
    destroy := fun _ env => env }

/-- Collaborators with no fallback: `rollback` re-raises the error it is given.  The collaborator
`createComponent` throws when `createFails` is set and returns the component `7` otherwise;
`captureState` always gives an object and `restoreState` always throws. -/
def fatal (createFails : Bool) (initialOptions : Options) : ProxyInstance Nat :=
  { initialOptions := initialOptions
    debugName := "App"
    createComponent := fun _ env =>
      if createFails then (.error "broken", env) else (.ok 7, env)
    rollback := fun err env => (.error err, env)
    captureState := fun _ env => (.object [("count", "1")], env)
    restoreState := fun _ _ env => (.error "cannot restore", env)
    destroy := fun _ env => env }

/-- The adapter and world after `init()` with `flaky 0 mountOptions`: the component `100` is
live and the marker `2` sits before the node `1` in the container `0`. -/
def mounted : Run Nat := ProxyAdapterDom.init (flaky 0 mountOptions) 1 ProxyAdapterDom.new world

end Sample

namespace ProxyAdapterDom

/-- The calls made by failed attempts: for each error, the `createComponent` call that threw it
and the `rollback` call that received it. -/
def failedAttempts (options : Options) : List Err → List Event
  | [] => []
  | err :: errs =>
    Event.createComponent options :: Event.rollback err :: failedAttempts options errs

/-- The calls of a successful attempt: the `createComponent` call, and the `restoreState` call
when the snapshot is truthy. -/
def successfulAttempt (options : Options) (cmp : Handle) (restore : Snapshot) : List Event :=
  Event.createComponent options ::
    (if restore.truthy then [Event.restoreState cmp restore] else [])

end ProxyAdapterDom

/-- Whether a call is a call of the collaborator `rollback`. -/
def Event.isRollback : Event → Bool
  | .rollback _ => true
  | _ => false

/-- Whether a call is a call of the collaborator `createComponent`. -/
def Event.isCreateComponent : Event → Bool
  | .createComponent _ => true
  | _ => false

/-! ## Sequences of registry calls -/

namespace registry

/-- The calls `registerInstance(x)` for the instances of a list, in order; a call that throws
ends the sequence. -/
def registerAll : List Instance → Items → Result
  | [], items => { threw := none, items := items }
  | inst :: rest, items =>
    match (registerInstance inst items).threw with
    | none => registerAll rest (registerInstance inst items).items
    | some err => { threw := some err, items := (registerInstance inst items).items }

/-- A new registry beside one array that the caller has built, the array `0`, holding `xs`. -/
def withArray (xs : List Instance) : Items :=
  { own := fun _ => none, proto := none, arrays := Function.update (fun _ => []) 0 xs, next := 1 }

/-- A call on the registry. -/
inductive Op where
  | set (k : String) (v : Value)
  | registerInstance (inst : Instance)
  | deRegisterInstance (inst : Instance)
deriving DecidableEq, Repr

/-- The table one call leaves, whether it returns or throws. -/
def Op.apply : Op → Items → Items
  | .set k v, items => registry.set k v items
  | .registerInstance inst, items => (registry.registerInstance inst items).items
  | .deRegisterInstance inst, items => (registry.deRegisterInstance inst items).items

/-- The table after a sequence of calls, made in order. -/
def runOps : List Op → Items → Items
  | [], items => items
  | op :: ops, items => runOps ops (op.apply items)

/-- Every `set` of the sequence is made with a value that has no `instances` field. -/
def setsWithoutInstances : List Op → Bool
  | [] => true
  | .set _ v :: ops => v.instances.isNone && setsWithoutInstances ops
  | _ :: ops => setsWithoutInstances ops

/-- No `registerInstance` of the sequence registers an instance that is, at the time of the
call, already in the list of its entry. -/
def registersOnce : List Op → Items → Bool
  | [], _ => true
  | .registerInstance inst :: ops, items =>
    (match lookup items inst.id with
      | .entry e => decide (inst ∉ items.arrays e.instances)
      | _ => true)
      && registersOnce ops (registry.registerInstance inst items).items
  | op :: ops, items => registersOnce ops (op.apply items)

end registry

/-! ## Sequences of adapter calls -/

namespace ProxyAdapterDom

variable {X : Type}

/-- The environment `destroyComponent` works on after its first step: the one `$destroy` leaves
when a component is live, the one it was given otherwise. -/
def envAfterDestroy (inst : ProxyInstance X) (self : ProxyAdapterDom) (env : Env X) : Env X :=
  match self.cmp with
  | some cmp => inst.destroy cmp env
  | none => env

/-- The node is at the same place of the host tree in both environments: it has the same parent
and is in the same child lists. -/
def SamePlace (node : Node) (before after : Env X) : Prop :=
  after.dom.parentNode node = before.dom.parentNode node
    ∧ ∀ parent, node ∈ after.dom.childNodes parent ↔ node ∈ before.dom.childNodes parent

/-- None of the collaborators `$destroy`, `captureState`, `createComponent` and `rollback`
moves the node in the host tree. -/
def LeavesNode (inst : ProxyInstance X) (node : Node) : Prop :=
  (∀ cmp env, SamePlace node env (inst.destroy cmp env))
    ∧ (∀ cmp env, SamePlace node env (inst.captureState cmp env).2)
    ∧ (∀ options env, SamePlace node env (inst.createComponent options env).2)
    ∧ (∀ err env, SamePlace node env (inst.rollback err env).2)

/-- A call of one of the three lifecycle methods, with the fuel given to its create step. -/
inductive Call where
  | init (fuel : Nat)
  | rerender (fuel : Nat)
  | dispose
deriving DecidableEq, Repr

/-- The method call a `Call` stands for. -/
def Call.run (inst : ProxyInstance X) : Call → ProxyAdapterDom → World X → Run X
  | .init fuel, self, w => ProxyAdapterDom.init inst fuel self w
  | .rerender fuel, self, w => ProxyAdapterDom.rerender inst fuel self w
  | .dispose, self, w => ProxyAdapterDom.dispose inst self w

/-- An adapter in its world, with what has happened to it so far: whether some `init()` with a
target has returned (`completedInit`), whether `dispose()` has been called (`disposed`), and
whether, since the last `dispose()`, some `init()` with a target has got its component created
and so reached its `afterMount` call (`mountedSince`). -/
structure Lifecycle (X : Type) where
  self : ProxyAdapterDom
  world : World X
  completedInit : Bool
  disposed : Bool
  mountedSince : Bool

/-- The lifecycle of an adapter built by the constructor. -/
def Lifecycle.start (w : World X) : Lifecycle X :=
  { self := ProxyAdapterDom.new, world := w, completedInit := false, disposed := false,
    mountedSince := false }

/-- One call on an adapter; whether it returns or throws, the adapter goes on from the state
the call left. -/
def Lifecycle.step (inst : ProxyInstance X) (l : Lifecycle X) : Call → Lifecycle X
  | .init fuel =>
    { self := (init inst fuel l.self l.world).self
      world := (init inst fuel l.self l.world).world
      completedInit := l.completedInit
        || (inst.initialOptions.target.isSome
          && decide ((init inst fuel l.self l.world).outcome = .returned))
      disposed := l.disposed
      mountedSince := l.mountedSince
        || (inst.initialOptions.target.isSome
          && decide ((createComponent inst fuel inst.initialOptions.target
                inst.initialOptions.anchor l.self l.world).outcome = .returned)) }
  | .rerender fuel =>
    { l with
      self := (rerender inst fuel l.self l.world).self
      world := (rerender inst fuel l.self l.world).world }
  | .dispose =>
    { self := (dispose inst l.self l.world).self
      world := (dispose inst l.self l.world).world
      completedInit := l.completedInit
      disposed := true
      mountedSince := false }

/-- A sequence of calls on an adapter, made in order. -/
def Lifecycle.run (inst : ProxyInstance X) : List Call → Lifecycle X → Lifecycle X
  | [], l => l
  | call :: calls, l => Lifecycle.run inst calls (l.step inst call)

end ProxyAdapterDom

namespace Sample

/-- Collaborators that create the components `100`, `101`, ... in turn; `captureState` always
gives an object, `restoreState` throws on the component `100` and returns on the others, and
`rollback` returns. -/
def leaky (initialOptions : Options) : ProxyInstance Nat :=
  { initialOptions := initialOptions
    debugName := "App"
    createComponent := fun _ env => (.ok (100 + env.ext), { env with ext := env.ext + 1 })
    rollback := fun _ env => (.ok (), env)
    captureState := fun _ env => (.object [], env)
    restoreState := fun cmp _ env =>
      if cmp = 100 then (.error "cannot restore", env) else (.ok (), env)
    destroy := fun _ env => env }

/-- Collaborators whose `$destroy` takes the node `1` out of the container `0`, as a component
rendered into that node would. -/
def unmounting (initialOptions : Options) : ProxyInstance Nat :=
  { flaky 0 initialOptions with
    destroy := fun _ env => { env with dom := env.dom.removeChild 0 1 } }

/-- The mounted sample adapter after `dispose()`. -/
def disposed : Run Nat :=
  ProxyAdapterDom.dispose (flaky 0 mountOptions) mounted.self mounted.world

end Sample

namespace ProxyAdapterDom

variable {X : Type}

/-- The collaborator `createComponent`, called again and again with `options` from the
environment `env`, throws the errors `errs` on all its calls; `rollback` returns on each of
them but the last, on which it re-raises `fatal`, leaving the environment `last`. -/
inductive FatalAttempts (inst : ProxyInstance X) (options : Options) :
    Env X → List Err → Err → Env X → Prop where
  | fatal {env env1 last : Env X} {err fatal : Err} :
      inst.createComponent options env = (.error err, env1) →
      inst.rollback err env1 = (.error fatal, last) →
      FatalAttempts inst options env [err] fatal last
  | retry {env env1 env2 last : Env X} {err fatal : Err} {errs : List Err} :
      inst.createComponent options env = (.error err, env1) →
      inst.rollback err env1 = (.ok (), env2) →
      FatalAttempts inst options env2 errs fatal last →
      FatalAttempts inst options env (err :: errs) fatal last

end ProxyAdapterDom

namespace Sample

/-- Collaborators for a rerender of the mounted sample adapter that fails half-way: the call
of `createComponent` made after one earlier call returns the component `101` and every other
call throws; `captureState` always gives an object and `restoreState` always throws; `rollback`
returns on the error of `restoreState` and re-raises every other error. -/
def relapsing (initialOptions : Options) : ProxyInstance Nat :=
  { initialOptions := initialOptions
    debugName := "App"
    createComponent := fun _ env =>
      if env.ext = 1 then (.ok 101, { env with ext := env.ext + 1 })
      else (.error "broken", { env with ext := env.ext + 1 })
    rollback := fun err env =>
      if err = "cannot restore" then (.ok (), env) else (.error err, env)
    captureState := fun _ env => (.object [], env)
    restoreState := fun _ _ env => (.error "cannot restore", env)
    destroy := fun _ env => env }

end Sample

/-! ## The registry: fan-out order and deregistration -/

namespace registry

theorem forEachSplice_past_end (x : Instance) (n : Nat) :
    ∀ (idx : Nat) (arr : List Instance), arr.length ≤ idx → forEachSplice x n idx arr = arr := by
  induction n with
  | zero => intro idx arr _; rfl
  | succ n ih =>
    intro idx arr h
    have hnone : arr.get? idx = none := by simpa using h
    rw [forEachSplice, hnone]
    exact ih (idx + 1) arr (by omega)

theorem get?_split (pre : List Instance) (c : Instance) (cs : List Instance) :
    (pre ++ c :: cs).get? pre.length = some c := by
  induction pre with
  | nil => rfl
  | cons p ps ih => simpa using ih

theorem eraseIdx_split (pre : List Instance) (c : Instance) (cs : List Instance) :
    (pre ++ c :: cs).eraseIdx pre.length = pre ++ cs := by
  rw [List.eraseIdx_append_of_length_le (le_refl _)]
  simp

theorem forEachSplice_absent (x : Instance) (n : Nat) :
    ∀ (pre post : List Instance), x ∉ post →
      forEachSplice x n pre.length (pre ++ post) = pre ++ post := by
  induction n with
  | zero => intro pre post _; rfl
  | succ n ih =>
    intro pre post hx
    cases post with
    | nil => exact forEachSplice_past_end x _ _ _ (by simp)
    | cons c cs =>
      have hc : c ≠ x := fun h => hx (by simp [h])
      have hcs : x ∉ cs := fun h => hx (by simp [h])
      rw [forEachSplice, get?_split]
      simp only [hc, if_false]
      have := ih (pre ++ [c]) cs hcs
      simpa using this

theorem forEachSplice_nodup (x : Instance) (n : Nat) :
    ∀ (pre post : List Instance), post.Nodup → post.length ≤ n →
      forEachSplice x n pre.length (pre ++ post)
        = pre ++ post.filter (fun y => decide (y ≠ x)) := by
  induction n with
  | zero =>
    intro pre post _ hlen
    have : post = [] := List.length_eq_zero.mp (by omega)
    subst this; rfl
  | succ n ih =>
    intro pre post hnd hlen
    cases post with
    | nil => simpa using forEachSplice_past_end x (n + 1) pre.length pre (le_refl _)
    | cons c cs =>
      have hcs : cs.Nodup := (List.nodup_cons.mp hnd).2
      rw [forEachSplice, get?_split]
      by_cases hc : c = x
      · subst hc
        have hx : c ∉ cs := (List.nodup_cons.mp hnd).1
        simp only [if_true, eraseIdx_split]
        have hfilter : (c :: cs).filter (fun y => decide (y ≠ c)) = cs := by
          rw [List.filter_cons_of_neg (by simp)]
          exact List.filter_eq_self.mpr (fun a ha => by
            have : a ≠ c := fun h => hx (h ▸ ha)
            simpa using this)
        rw [hfilter]
        cases cs with
        | nil => simpa using forEachSplice_past_end c n (pre.length + 1) pre (by omega)
        | cons d ds =>
          have hd : c ∉ ds := fun h => hx (by simp [h])
          have := forEachSplice_absent c n (pre ++ [d]) ds hd
          simpa using this
      · simp only [hc, if_false]
        have := ih (pre ++ [c]) cs hcs (by simpa using hlen)
        rw [List.filter_cons_of_pos (by simpa using hc)]
        simpa using this

/-- What the loop of `deRegisterInstance` leaves of the part of the array it has not visited
yet: a sublist of it in which every element other than `x` is kept, and from which the first
`x` is gone when the loop has enough steps left to reach it. -/
theorem forEachSplice_sublist (x : Instance) (n : Nat) :
    ∀ (pre post : List Instance), ∃ kept,
      forEachSplice x n pre.length (pre ++ post) = pre ++ kept
        ∧ kept.Sublist post
        ∧ kept.filter (fun y => decide (y ≠ x)) = post.filter (fun y => decide (y ≠ x))
        ∧ (post.length ≤ n → x ∈ post → kept.Sublist (post.erase x)) := by
  induction n with
  | zero =>
    intro pre post
    refine ⟨post, rfl, List.Sublist.refl _, rfl, ?_⟩
    intro hlen hx
    have : post = [] := List.length_eq_zero.mp (by omega)
    subst this
    simp at hx
  | succ n ih =>
    intro pre post
    cases post with
    | nil =>
      refine ⟨[], ?_, List.Sublist.refl _, rfl, ?_⟩
      · simpa using forEachSplice_past_end x (n + 1) pre.length pre (le_refl _)
      · intro _ hx; simp at hx
    | cons c cs =>
      by_cases hc : c = x
      · subst hc
        cases cs with
        | nil =>
          refine ⟨[], ?_, by simp, by simp, ?_⟩
          · rw [forEachSplice, get?_split]
            simp only [if_true, eraseIdx_split]
            simpa using forEachSplice_past_end c n (pre.length + 1) pre (by omega)
          · intro _ _; simp
        | cons d ds =>
          obtain ⟨kept, hrun, hsub, hfilter, _⟩ := ih (pre ++ [d]) ds
          refine ⟨d :: kept, ?_, ?_, ?_, ?_⟩
          · rw [forEachSplice, get?_split]
            simp only [if_true, eraseIdx_split]
            simpa using hrun
          · exact (hsub.cons₂ d).cons c
          · simp only [ne_eq, decide_not] at hfilter ⊢
            simp [List.filter_cons, hfilter]
          · intro _ _
            simpa using hsub.cons₂ d
      · obtain ⟨kept, hrun, hsub, hfilter, hfirst⟩ := ih (pre ++ [c]) cs
        refine ⟨c :: kept, ?_, hsub.cons₂ c, ?_, ?_⟩
        · rw [forEachSplice, get?_split]
          simp only [hc, if_false]
          simpa using hrun
        · simp only [ne_eq, decide_not] at hfilter ⊢
          simp [List.filter_cons, hfilter]
        · intro hlen hx
          have hxcs : x ∈ cs := by
            rcases List.mem_cons.mp hx with h | h
            · exact absurd h.symm hc
            · exact h
          have hlen2 : cs.length ≤ n := by simpa using hlen
          rw [List.erase_cons_tail (by simpa using hc)]
          exact (hfirst hlen2 hxcs).cons₂ c

/-- The method `set` allocates the array of its defaults literal and touches no other array. -/
theorem set_arrays (items : Items) (k : String) (v : Value) :
    (set k v items).arrays = Function.update items.arrays items.next []
      ∧ (set k v items).next = items.next + 1 := by
  unfold set
  simp only
  split <;> exact ⟨rfl, rfl⟩

/-- The method `set` writes no own property of the table under another key. -/
theorem set_own_other (items : Items) (k j : String) (v : Value) (hj : j ≠ k) :
    (set k v items).own j = items.own j := by
  unfold set
  simp only
  split
  · rfl
  · simp [Function.update_noteq hj]

/-- A property read does not depend on the contents of the arrays. -/
theorem lookup_arrays (items : Items) (arrays : Ref → List Instance) (k : String) :
    lookup { items with arrays := arrays } k = lookup items k := rfl

/-- After `set(k, v)` the table gives the new entry under `k`, also for `k = "__proto__"`,
where the entry is the new prototype of the table. -/
theorem lookup_set_self (items : Items) (k : String) (v : Value) :
    lookup (set k v items) k = JsVal.entry (assign (defaults items.next) v) := by
  by_cases hk : k = "__proto__" ∧ items.own k = none
  · obtain ⟨hk1, hk2⟩ := hk
    subst hk1
    simp [set, hk2, lookup, inherited, fromObjectPrototype]
  · simp [set, hk, lookup]

/-- Unless `set` replaces the prototype of the table, it changes no property read under another
key. -/
theorem lookup_set_other (items : Items) (k j : String) (v : Value)
    (hk : k ≠ "__proto__" ∨ items.own k ≠ none) (hj : j ≠ k) :
    lookup (set k v items) j = lookup items j := by
  have hnot : ¬ (k = "__proto__" ∧ items.own k = none) := by
    rintro ⟨h1, h2⟩
    rcases hk with h | h
    · exact h h1
    · exact h h2
  simp [set, hnot, lookup, inherited, Function.update_noteq hj]

/-- On an entry, `registerInstance` pushes the instance onto the array of the entry. -/
theorem registerInstance_entry (items : Items) (inst : Instance) (e : Entry)
    (he : lookup items inst.id = JsVal.entry e) :
    registerInstance inst items
      = { threw := none
          items :=
            { items with
              arrays :=
                Function.update items.arrays e.instances
                  (items.arrays e.instances ++ [inst]) } } := by
  simp only [registerInstance, he]

/-- On a value that is not an entry, `registerInstance` returns or throws according to its
truthiness, and leaves the table as it is. -/
theorem registerInstance_other (items : Items) (inst : Instance)
    (hne : ∀ e, lookup items inst.id ≠ JsVal.entry e) :
    registerInstance inst items
      = { threw := if (lookup items inst.id).truthy then some "TypeError" else none
          items := items } := by
  simp only [registerInstance]
  generalize lookup items inst.id = val at hne ⊢
  cases val <;> simp_all [JsVal.truthy]

/-- On an entry, `deRegisterInstance` runs its loop on the array of the entry, in place. -/
theorem deRegisterInstance_entry (items : Items) (inst : Instance) (e : Entry)
    (he : lookup items inst.id = JsVal.entry e) :
    deRegisterInstance inst items
      = { threw := none
          items :=
            { items with
              arrays :=
                Function.update items.arrays e.instances
                  (forEachSplice inst (items.arrays e.instances).length 0
                    (items.arrays e.instances)) } } := by
  simp only [deRegisterInstance, he]

/-- On a value that is not an entry, `deRegisterInstance` returns or throws according to its
truthiness, and leaves the table as it is. -/
theorem deRegisterInstance_other (items : Items) (inst : Instance)
    (hne : ∀ e, lookup items inst.id ≠ JsVal.entry e) :
    deRegisterInstance inst items
      = { threw := if (lookup items inst.id).truthy then some "TypeError" else none
          items := items } := by
  simp only [deRegisterInstance]
  generalize lookup items inst.id = val at hne ⊢
  cases val <;> simp_all [JsVal.truthy]

/-- Writing back the contents an array already has changes nothing. -/
theorem arrays_update_self (items : Items) (ref : Ref) :
    { items with arrays := Function.update items.arrays ref (items.arrays ref) } = items := by
  cases items
  simp

/-- Registering, one after the other, instances that are all filed under a key that has an entry
appends them to the array of that entry in the order of the calls, and none of the calls
throws. -/
theorem registerAll_entry (k : String) (xs : List Instance) :
    ∀ (items : Items) (e : Entry), lookup items k = JsVal.entry e → (∀ x ∈ xs, x.id = k) →
      registerAll xs items
        = { threw := none
            items :=
              { items with
                arrays :=
                  Function.update items.arrays e.instances
                    (items.arrays e.instances ++ xs) } } := by
  induction xs with
  | nil =>
    intro items e _ _
    simp only [registerAll, List.append_nil, arrays_update_self]
  | cons x xs ih =>
    intro items e he hid
    have hx : x.id = k := hid x (by simp)
    have hstep := registerInstance_entry items x e (by rw [hx]; exact he)
    simp only [registerAll, hstep]
    rw [ih _ e (by rw [lookup_arrays]; exact he) (fun y hy => hid y (by simp [hy]))]
    simp

/-- C9, as stated, fails at the empty key: after `set("", v)` with no `instances` field and one
`registerInstance` of an instance whose id is `""`, `get("")` is the whole table, and its
`.instances` is `undefined`, not the list of the registered instance. -/
theorem fanout_empty_key_counterexample :
    get (some "") (registerAll [⟨"", 1⟩] (set "" ⟨none, none, none⟩ empty)).items
        = GetResult.items (registerAll [⟨"", 1⟩] (set "" ⟨none, none, none⟩ empty)).items
      ∧ (get (some "") (registerAll [⟨"", 1⟩] (set "" ⟨none, none, none⟩ empty)).items).instances
          (registerAll [⟨"", 1⟩] (set "" ⟨none, none, none⟩ empty)).items
        = InstancesRead.value JsVal.undefined
      ∧ (get (some "") (registerAll [⟨"", 1⟩] (set "" ⟨none, none, none⟩ empty)).items).instances
          (registerAll [⟨"", 1⟩] (set "" ⟨none, none, none⟩ empty)).items
        ≠ InstancesRead.list [⟨"", 1⟩] := by
  have hread :
      (get (some "") (registerAll [⟨"", 1⟩] (set "" ⟨none, none, none⟩ empty)).items).instances
          (registerAll [⟨"", 1⟩] (set "" ⟨none, none, none⟩ empty)).items
        = InstancesRead.value JsVal.undefined := by
    decide
  refine ⟨by simp [get], hread, ?_⟩
  rw [hread]
  simp

/-- C9 (amended): for every non-empty key `k` for which `set(k, v)` was called with no
`instances` field, and every list of instances whose id is `k`, calling `registerInstance` on
each in turn (no call throws) makes `get(k)` the entry for `k` and `get(k).instances` exactly
that list, in registration order. -/
theorem registerInstance_fanout_order (items : Items) (k : String) (v : Value)
    (xs : List Instance) (hk : k ≠ "") (hv : v.instances = none) (hid : ∀ x ∈ xs, x.id = k) :
    (registerAll xs (set k v items)).threw = none
      ∧ get (some k) (registerAll xs (set k v items)).items
        = GetResult.value
            (JsVal.entry
              { rollback := v.rollback.getD none, component := v.component.getD none,
                instances := items.next })
      ∧ (registerAll xs (set k v items)).items.arrays items.next = xs
      ∧ (get (some k) (registerAll xs (set k v items)).items).instances
          (registerAll xs (set k v items)).items
        = InstancesRead.list xs := by
  have hentry : lookup (set k v items) k
      = JsVal.entry
          { rollback := v.rollback.getD none, component := v.component.getD none,
            instances := items.next } := by
    rw [lookup_set_self]
    simp [assign, defaults, hv]
  have hfresh : (set k v items).arrays items.next = [] := by
    rw [(set_arrays items k v).1]
    simp
  have hrun := registerAll_entry k xs (set k v items) _ hentry hid
  have hget : get (some k) (registerAll xs (set k v items)).items
      = GetResult.value
          (JsVal.entry
            { rollback := v.rollback.getD none, component := v.component.getD none,
              instances := items.next }) := by
    rw [hrun]
    simp only [get, hk, if_false, lookup_arrays, hentry, JsVal.truthy, if_true]
  have harr : (registerAll xs (set k v items)).items.arrays items.next = xs := by
    rw [hrun]
    simp [hfresh]
  refine ⟨by rw [hrun], hget, harr, ?_⟩
  rw [hget]
  simp only [GetResult.instances, harr]

/-- Witness of C9 (amended): three instances registered under `"A"`. -/
theorem registerInstance_fanout_order_witness :
    (get (some "A")
        (registerAll [⟨"A", 1⟩, ⟨"A", 2⟩, ⟨"A", 3⟩]
          (set "A" ⟨none, some (some "App"), none⟩ empty)).items).instances
        (registerAll [⟨"A", 1⟩, ⟨"A", 2⟩, ⟨"A", 3⟩]
          (set "A" ⟨none, some (some "App"), none⟩ empty)).items
      = InstancesRead.list [⟨"A", 1⟩, ⟨"A", 2⟩, ⟨"A", 3⟩] :=
  (registerInstance_fanout_order empty "A" ⟨none, some (some "App"), none⟩
    [⟨"A", 1⟩, ⟨"A", 2⟩, ⟨"A", 3⟩] (by decide) rfl (by decide)).2.2.2

/-- C10, as stated, fails for an entry that lists `x` under a key other than `x.id`:
`deRegisterInstance(x)` reads the entry under `x.id` only.  Here the entry under `"A"` points
to the array `[x]` with `x.id = "B"`; nothing is stored under `"B"`, and after
`deRegisterInstance(x)` the list of `"A"` is still `[x]`, not the list with `x` removed.  When
the id names an inherited member of the table, such as `"constructor"`, the call throws. -/
theorem deRegisterInstance_other_key_counterexample :
    lookup (set "A" ⟨none, none, some 0⟩ (withArray [⟨"B", 1⟩])) "A"
        = JsVal.entry { rollback := none, component := none, instances := 0 }
      ∧ (set "A" ⟨none, none, some 0⟩ (withArray [⟨"B", 1⟩])).arrays 0 = [⟨"B", 1⟩]
      ∧ (deRegisterInstance ⟨"B", 1⟩
          (set "A" ⟨none, none, some 0⟩ (withArray [⟨"B", 1⟩]))).items.arrays 0 = [⟨"B", 1⟩]
      ∧ (deRegisterInstance ⟨"B", 1⟩
          (set "A" ⟨none, none, some 0⟩ (withArray [⟨"B", 1⟩]))).items.arrays 0
        ≠ ([⟨"B", 1⟩] : List Instance).erase ⟨"B", 1⟩
      ∧ (deRegisterInstance ⟨"constructor", 1⟩ empty).threw = some "TypeError" := by
  refine ⟨by decide, by decide, by decide, by decide, by decide⟩

/-- C10 (amended): `deRegisterInstance(x)` works on the entry that the table gives under
`x.id`.  When the list of that entry has no duplicates and contains `x`, the list becomes the
original with `x` removed and every other element in its original relative order; the array is
changed in place and nothing else changes.  When `x` is not in that list, or the table holds
and inherits nothing truthy under `x.id`, the call returns and the table is unchanged; when
`x.id` names an inherited value that is not an entry, the call throws a `TypeError` and the
table is unchanged. -/
theorem deRegisterInstance_keeps_order (items : Items) (x : Instance) :
    (∀ e, lookup items x.id = JsVal.entry e → (items.arrays e.instances).Nodup →
        x ∈ items.arrays e.instances →
        deRegisterInstance x items
            = { threw := none
                items :=
                  { items with
                    arrays :=
                      Function.update items.arrays e.instances
                        ((items.arrays e.instances).filter (fun y => decide (y ≠ x))) } }
          ∧ (items.arrays e.instances).filter (fun y => decide (y ≠ x))
            = (items.arrays e.instances).erase x)
      ∧ (∀ e, lookup items x.id = JsVal.entry e → x ∉ items.arrays e.instances →
          deRegisterInstance x items = { threw := none, items := items })
      ∧ ((lookup items x.id).truthy = false →
          deRegisterInstance x items = { threw := none, items := items })
      ∧ ((∀ e, lookup items x.id ≠ JsVal.entry e) → (lookup items x.id).truthy = true →
          deRegisterInstance x items = { threw := some "TypeError", items := items }) := by
  refine ⟨?_, ?_, ?_, ?_⟩
  · intro e he hnd _
    have h := forEachSplice_nodup x (items.arrays e.instances).length []
      (items.arrays e.instances) hnd (le_refl _)
    simp only [List.length_nil, List.nil_append] at h
    refine ⟨?_, ?_⟩
    · rw [deRegisterInstance_entry items x e he, h]
    · rw [hnd.erase_eq_filter]
      congr 1
      funext y
      by_cases hy : y = x <;> simp [hy]
  · intro e he hx
    have h := forEachSplice_absent x (items.arrays e.instances).length []
      (items.arrays e.instances) hx
    simp only [List.length_nil, List.nil_append] at h
    rw [deRegisterInstance_entry items x e he, h, arrays_update_self]
  · intro hfalsy
    have hne : ∀ e, lookup items x.id ≠ JsVal.entry e := by
      intro e he
      rw [he] at hfalsy
      simp [JsVal.truthy] at hfalsy
    rw [deRegisterInstance_other items x hne, hfalsy]
    simp
  · intro hne htruthy
    rw [deRegisterInstance_other items x hne, htruthy]
    simp

/-- Witness of C10 (amended): the second of three instances under `"A"` is removed. -/
theorem deRegisterInstance_keeps_order_witness :
    (deRegisterInstance ⟨"A", 2⟩
        (set "A" ⟨none, none, some 0⟩
          (withArray [⟨"A", 1⟩, ⟨"A", 2⟩, ⟨"A", 3⟩]))).items.arrays 0
      = [⟨"A", 1⟩, ⟨"A", 3⟩] := by
  have h := ((deRegisterInstance_keeps_order
    (set "A" ⟨none, none, some 0⟩ (withArray [⟨"A", 1⟩, ⟨"A", 2⟩, ⟨"A", 3⟩])) ⟨"A", 2⟩).1
    { rollback := none, component := none, instances := 0 }
    (by decide) (by decide) (by decide)).1
  rw [h]
  decide

/-- C11, as stated, fails when the later occurrence does not directly follow the first: on the
list `[x, y, x]` filed under `"A"`, `deRegisterInstance(x)` leaves `[y]`, while the original
with its first occurrence of `x` removed is `[y, x]`. -/
theorem deRegisterInstance_later_match_counterexample :
    lookup (set "A" ⟨none, none, some 0⟩ (withArray [⟨"A", 1⟩, ⟨"A", 2⟩, ⟨"A", 1⟩])) "A"
        = JsVal.entry { rollback := none, component := none, instances := 0 }
      ∧ (set "A" ⟨none, none, some 0⟩ (withArray [⟨"A", 1⟩, ⟨"A", 2⟩, ⟨"A", 1⟩])).arrays 0
        = [⟨"A", 1⟩, ⟨"A", 2⟩, ⟨"A", 1⟩]
      ∧ (deRegisterInstance ⟨"A", 1⟩
          (set "A" ⟨none, none, some 0⟩
            (withArray [⟨"A", 1⟩, ⟨"A", 2⟩, ⟨"A", 1⟩]))).items.arrays 0 = [⟨"A", 2⟩]
      ∧ ([⟨"A", 1⟩, ⟨"A", 2⟩, ⟨"A", 1⟩] : List Instance).erase ⟨"A", 1⟩
        = [⟨"A", 2⟩, ⟨"A", 1⟩]
      ∧ (deRegisterInstance ⟨"A", 1⟩
          (set "A" ⟨none, none, some 0⟩
            (withArray [⟨"A", 1⟩, ⟨"A", 2⟩, ⟨"A", 1⟩]))).items.arrays 0
        ≠ ([⟨"A", 1⟩, ⟨"A", 2⟩, ⟨"A", 1⟩] : List Instance).erase ⟨"A", 1⟩ := by
  refine ⟨by decide, by decide, by decide, by decide, by decide⟩

/-- C11 (amended): for every instance `x` and the entry the table gives under `x.id`,
`deRegisterInstance(x)` returns and changes nothing but the contents of the array that entry
points to, in place; the new list is a sublist of the original in which every element other
than `x` is kept in its original relative order, and, when `x` is in the list, a sublist of
the original with its first occurrence of `x` removed.  Nothing is promised about the later
occurrences of `x`. -/
theorem deRegisterInstance_first_match (items : Items) (x : Instance) (e : Entry)
    (he : lookup items x.id = JsVal.entry e) :
    ∃ kept, deRegisterInstance x items
          = { threw := none
              items := { items with arrays := Function.update items.arrays e.instances kept } }
        ∧ kept.Sublist (items.arrays e.instances)
        ∧ kept.filter (fun y => decide (y ≠ x))
          = (items.arrays e.instances).filter (fun y => decide (y ≠ x))
        ∧ (x ∈ items.arrays e.instances → kept.Sublist ((items.arrays e.instances).erase x)) := by
  obtain ⟨kept, hrun, hsub, hfilter, hfirst⟩ :=
    forEachSplice_sublist x (items.arrays e.instances).length [] (items.arrays e.instances)
  simp only [List.length_nil, List.nil_append] at hrun
  exact ⟨kept, by rw [deRegisterInstance_entry items x e he, hrun], hsub, hfilter,
    hfirst (le_refl _)⟩

/-- Witness of C11 (amended): the list `[x, y, x]` filed under `"A"`. -/
theorem deRegisterInstance_first_match_witness :
    ∃ kept, (deRegisterInstance ⟨"A", 1⟩
          (set "A" ⟨none, none, some 0⟩
            (withArray [⟨"A", 1⟩, ⟨"A", 2⟩, ⟨"A", 1⟩]))).items.arrays 0 = kept
        ∧ kept.Sublist [⟨"A", 1⟩, ⟨"A", 2⟩, ⟨"A", 1⟩]
        ∧ kept.filter (fun y => decide (y ≠ (⟨"A", 1⟩ : Instance))) = [⟨"A", 2⟩] := by
  obtain ⟨kept, hrun, hsub, hfilter, _⟩ := deRegisterInstance_first_match
    (set "A" ⟨none, none, some 0⟩ (withArray [⟨"A", 1⟩, ⟨"A", 2⟩, ⟨"A", 1⟩])) ⟨"A", 1⟩
    { rollback := none, component := none, instances := 0 } (by decide)
  refine ⟨kept, ?_, ?_, ?_⟩
  · rw [hrun]; simp
  · have h0 : (set "A" ⟨none, none, some 0⟩
        (withArray [⟨"A", 1⟩, ⟨"A", 2⟩, ⟨"A", 1⟩])).arrays 0
        = [⟨"A", 1⟩, ⟨"A", 2⟩, ⟨"A", 1⟩] := by decide
    rw [← h0]; exact hsub
  · rw [hfilter]; decide

/-- C12, as stated, fails at the key `"__proto__"`: `set("__proto__", v)` stores no entry in
the table but replaces its prototype by the new entry, so the reads under other keys change.
On a new registry `get("instances")` is `undefined` before the call and the array of the new
entry after it. -/
theorem set_proto_counterexample :
    get (some "instances") empty = GetResult.value JsVal.undefined
      ∧ (set "__proto__" ⟨none, none, none⟩ empty).own "__proto__" = none
      ∧ (set "__proto__" ⟨none, none, none⟩ empty).proto
        = some { rollback := none, component := none, instances := 0 }
      ∧ get (some "instances") (set "__proto__" ⟨none, none, none⟩ empty)
        = GetResult.value (JsVal.array 0)
      ∧ lookup (set "__proto__" ⟨none, none, none⟩ empty) "instances" ≠ lookup empty "instances" := by
  refine ⟨?_, by decide, by decide, ?_, by decide⟩
  · simp [get, lookup, inherited, fromObjectPrototype, empty, objectPrototypeKeys,
      JsVal.truthy]
  · have h : lookup (set "__proto__" ⟨none, none, none⟩ empty) "instances" = JsVal.array 0 := by
      decide
    simp [get, h, JsVal.truthy]

/-- C12 (amended): for every table, key `k` and value `v`, after `set(k, v)` the table gives
under `k` an entry that has each of `rollback`, `component` and `instances` equal to the field
of `v` when `v` has it and to `null`, `null` and a new empty array when `v` lacks it; the entry
does not depend on what was stored under `k` before, so the instances registered there are
dropped.  The own entries under all other keys are unchanged, no existing array is changed,
and every read under another key is unchanged, except after `set("__proto__", v)` on a table
with no own property of that name: that call replaces the prototype of the table by the new
entry. -/
theorem set_inserts_with_defaults (items : Items) (k : String) (v : Value) :
    lookup (set k v items) k
        = JsVal.entry
            { rollback := v.rollback.getD none, component := v.component.getD none,
              instances := v.instances.getD items.next }
      ∧ (v.instances = none → (set k v items).arrays items.next = [])
      ∧ (∀ previous : Option Entry,
          lookup (set k v { items with own := Function.update items.own k previous }) k
            = lookup (set k v items) k)
      ∧ (∀ j, j ≠ k → (set k v items).own j = items.own j)
      ∧ (∀ ref, ref ≠ items.next → (set k v items).arrays ref = items.arrays ref)
      ∧ (k ≠ "__proto__" ∨ items.own k ≠ none →
          (set k v items).proto = items.proto
            ∧ ∀ j, j ≠ k → lookup (set k v items) j = lookup items j)
      ∧ (k = "__proto__" → items.own k = none →
          (set k v items).proto = some (assign (defaults items.next) v)
            ∧ (set k v items).own = items.own) := by
  have hself : ∀ t : Items, t.next = items.next →
      lookup (set k v t) k
        = JsVal.entry
            { rollback := v.rollback.getD none, component := v.component.getD none,
              instances := v.instances.getD items.next } := by
    intro t ht
    rw [lookup_set_self, ht]
    simp [assign, defaults]
  refine ⟨hself items rfl, ?_, ?_, ?_, ?_, ?_, ?_⟩
  · intro _
    rw [(set_arrays items k v).1]
    simp
  · intro previous
    rw [hself items rfl]
    exact hself { items with own := Function.update items.own k previous } rfl
  · intro j hj
    exact set_own_other items k j v hj
  · intro ref href
    rw [(set_arrays items k v).1, Function.update_noteq href]
  · intro hk
    have hnot : ¬ (k = "__proto__" ∧ items.own k = none) := by
      rintro ⟨h1, h2⟩
      rcases hk with h | h
      · exact h h1
      · exact h h2
    refine ⟨by simp [set, hnot], ?_⟩
    intro j hj
    exact lookup_set_other items k j v hk hj
  · intro hk hown
    subst hk
    simp [set, hown]

/-- Witness of C12 (amended): a `set` under `"A"` drops the instances registered under `"A"`
and leaves the reads under `"B"` alone. -/
theorem set_inserts_with_defaults_witness :
    lookup (set "A" ⟨none, some (some "App"), none⟩
        (registerInstance ⟨"A", 1⟩
          (set "B" ⟨none, none, none⟩ (set "A" ⟨none, none, none⟩ empty))).items) "A"
        = JsVal.entry { rollback := none, component := some "App", instances := 2 }
      ∧ (set "A" ⟨none, some (some "App"), none⟩
        (registerInstance ⟨"A", 1⟩
          (set "B" ⟨none, none, none⟩ (set "A" ⟨none, none, none⟩ empty))).items).arrays 2 = []
      ∧ lookup (set "A" ⟨none, some (some "App"), none⟩
        (registerInstance ⟨"A", 1⟩
          (set "B" ⟨none, none, none⟩ (set "A" ⟨none, none, none⟩ empty))).items) "B"
        = lookup (registerInstance ⟨"A", 1⟩
          (set "B" ⟨none, none, none⟩ (set "A" ⟨none, none, none⟩ empty))).items "B" :=
  have h := set_inserts_with_defaults
    (registerInstance ⟨"A", 1⟩
      (set "B" ⟨none, none, none⟩ (set "A" ⟨none, none, none⟩ empty))).items
    "A" ⟨none, some (some "App"), none⟩
  ⟨h.1, h.2.1 rfl, (h.2.2.2.2.2.1 (Or.inl (by decide))).2 "B" (by decide)⟩

/-- C13, as stated, fails at the empty key: after `set("", v)`, `get("")` is the whole table,
not the entry stored under `""`.  It fails as well at the names the table inherits: on a new
registry `get("constructor")` is the function inherited from `Object.prototype`, not
`undefined`. -/
theorem get_empty_key_counterexample :
    lookup (set "" ⟨none, some (some "App"), none⟩ empty) ""
        = JsVal.entry { rollback := none, component := some "App", instances := 0 }
      ∧ get (some "") (set "" ⟨none, some (some "App"), none⟩ empty)
        = GetResult.items (set "" ⟨none, some (some "App"), none⟩ empty)
      ∧ get (some "") (set "" ⟨none, some (some "App"), none⟩ empty)
        ≠ GetResult.value
            (JsVal.entry { rollback := none, component := some "App", instances := 0 })
      ∧ get (some "constructor") empty = GetResult.value (JsVal.builtin "constructor")
      ∧ get (some "constructor") empty ≠ GetResult.value JsVal.undefined := by
  have hbuiltin : get (some "constructor") empty
      = GetResult.value (JsVal.builtin "constructor") := by
    simp [get, lookup, inherited, fromObjectPrototype, empty, objectPrototypeKeys, JsVal.truthy]
  refine ⟨by decide, by simp [get], by simp [get], hbuiltin, ?_⟩
  rw [hbuiltin]
  simp

/-- C13 (amended): for every non-empty string key `k`, `get(k)` returns the entry stored under
`k`, in particular the one just stored by `set(k, v)`.  When the table has no entry of its own
under `k`, `get(k)` returns `undefined` unless `k` names a truthy value the table inherits (a
member of `Object.prototype` such as `"constructor"`, `"__proto__"`, or a field of the entry
that `set("__proto__", v)` has made the prototype), in which case that value is returned; on a
table whose prototype has not been replaced, and so on a new registry, that is every name but
`"__proto__"` and the names of `Object.prototype`.  The entire table is returned when no key is
given and when the key is the empty string. -/
theorem get_returns_entry (items : Items) (k : String) :
    (k ≠ "" → ∀ v,
        get (some k) (set k v items) = GetResult.value (JsVal.entry (assign (defaults items.next) v)))
      ∧ (k ≠ "" → ∀ e, items.own k = some e → get (some k) items = GetResult.value (JsVal.entry e))
      ∧ (k ≠ "" → items.own k = none → (inherited items k).truthy = false →
          get (some k) items = GetResult.value JsVal.undefined)
      ∧ (k ≠ "" → items.own k = none → (inherited items k).truthy = true →
          get (some k) items = GetResult.value (inherited items k))
      ∧ (k ≠ "" → k ≠ "__proto__" → k ∉ objectPrototypeKeys → items.own k = none →
          items.proto = none → get (some k) items = GetResult.value JsVal.undefined)
      ∧ (k ≠ "" → k ≠ "__proto__" → k ∉ objectPrototypeKeys →
          get (some k) empty = GetResult.value JsVal.undefined)
      ∧ get none items = GetResult.items items
      ∧ get (some "") items = GetResult.items items := by
  have hplain : k ≠ "" → k ≠ "__proto__" → k ∉ objectPrototypeKeys → ∀ t : Items,
      t.own k = none → t.proto = none → get (some k) t = GetResult.value JsVal.undefined := by
    intro hk hproto hkeys t hown hnone
    simp [get, hk, lookup, hown, inherited, hnone, fromObjectPrototype, hproto, hkeys,
      JsVal.truthy]
  refine ⟨?_, ?_, ?_, ?_, ?_, ?_, rfl, by simp [get]⟩
  · intro hk v
    simp [get, hk, lookup_set_self, JsVal.truthy]
  · intro hk e he
    simp [get, hk, lookup, he, JsVal.truthy]
  · intro hk hown hfalsy
    simp [get, hk, lookup, hown, hfalsy]
  · intro hk hown htruthy
    simp [get, hk, lookup, hown, htruthy]
  · intro hk hproto hkeys hown hnone
    exact hplain hk hproto hkeys items hown hnone
  · intro hk hproto hkeys
    exact hplain hk hproto hkeys empty rfl rfl

/-- Witness of C13 (amended): the keys `"A"` (stored) and `"B"` (never stored). -/
theorem get_returns_entry_witness :
    get (some "A") (set "A" ⟨none, some (some "App"), none⟩ empty)
        = GetResult.value
            (JsVal.entry { rollback := none, component := some "App", instances := 0 })
      ∧ get (some "B") empty = GetResult.value JsVal.undefined :=
  ⟨(get_returns_entry empty "A").1 (by decide) ⟨none, some (some "App"), none⟩,
    (get_returns_entry empty "B").2.2.2.2.2.1 (by decide) (by decide) (by decide)⟩

/-- C14, as stated, fails in two ways.  An id that names a member the table inherits has no
entry, yet `registerInstance` does not return: with the id `"constructor"` it throws a
`TypeError`.  And an entry is not alone in changing when its array is shared: with the entries
under `"A"` and `"B"` pointing to the same array, registering under `"A"` adds the instance to
the list of `"B"` too. -/
theorem registerInstance_inherited_counterexample :
    empty.own "constructor" = none
      ∧ (registerInstance ⟨"constructor", 1⟩ empty).threw = some "TypeError"
      ∧ lookup (set "B" ⟨none, none, some 0⟩ (set "A" ⟨none, none, some 0⟩ (withArray []))) "B"
        = JsVal.entry { rollback := none, component := none, instances := 0 }
      ∧ (set "B" ⟨none, none, some 0⟩ (set "A" ⟨none, none, some 0⟩ (withArray []))).arrays 0
        = []
      ∧ (registerInstance ⟨"A", 1⟩
          (set "B" ⟨none, none, some 0⟩
            (set "A" ⟨none, none, some 0⟩ (withArray [])))).items.arrays 0 = [⟨"A", 1⟩] := by
  refine ⟨rfl, by decide, by decide, by decide, by decide⟩

/-- C14 (amended): for every table and every instance under whose id the table holds and
inherits nothing truthy, `registerInstance(instance)` returns and leaves the whole table
unchanged, so no entry is created; when the id names an inherited value that is not an entry,
the call throws a `TypeError` and the table is unchanged; when the table gives an entry under
the id, the call returns and changes nothing but the array that entry points to, which gets
the instance appended at its end. -/
theorem registerInstance_no_auto_create (items : Items) (inst : Instance) :
    ((lookup items inst.id).truthy = false →
        registerInstance inst items = { threw := none, items := items })
      ∧ ((∀ e, lookup items inst.id ≠ JsVal.entry e) → (lookup items inst.id).truthy = true →
          registerInstance inst items = { threw := some "TypeError", items := items })
      ∧ (∀ e, lookup items inst.id = JsVal.entry e →
          registerInstance inst items
              = { threw := none
                  items :=
                    { items with
                      arrays :=
                        Function.update items.arrays e.instances
                          (items.arrays e.instances ++ [inst]) } }
            ∧ (registerInstance inst items).items.own = items.own
            ∧ (registerInstance inst items).items.proto = items.proto
            ∧ (∀ j, lookup (registerInstance inst items).items j = lookup items j)
            ∧ ∀ ref, ref ≠ e.instances →
                (registerInstance inst items).items.arrays ref = items.arrays ref) := by
  refine ⟨?_, ?_, ?_⟩
  · intro hfalsy
    have hne : ∀ e, lookup items inst.id ≠ JsVal.entry e := by
      intro e he
      rw [he] at hfalsy
      simp [JsVal.truthy] at hfalsy
    rw [registerInstance_other items inst hne, hfalsy]
    simp
  · intro hne htruthy
    rw [registerInstance_other items inst hne, htruthy]
    simp
  · intro e he
    rw [registerInstance_entry items inst e he]
    refine ⟨rfl, rfl, rfl, fun _ => rfl, ?_⟩
    intro ref href
    simp [Function.update_noteq href]

/-- Witness of C14 (amended): an instance with the unknown id `"B"`, and one with the known id
`"A"`. -/
theorem registerInstance_no_auto_create_witness :
    (registerInstance ⟨"B", 1⟩ (set "A" ⟨none, none, none⟩ empty)).threw = none
      ∧ (registerInstance ⟨"A", 2⟩
          (set "A" ⟨none, none, some 0⟩ (withArray [⟨"A", 1⟩]))).items.arrays 0
        = [⟨"A", 1⟩, ⟨"A", 2⟩] := by
  have h1 := (registerInstance_no_auto_create (set "A" ⟨none, none, none⟩ empty) ⟨"B", 1⟩).1
    (by decide)
  have h2 := ((registerInstance_no_auto_create
    (set "A" ⟨none, none, some 0⟩ (withArray [⟨"A", 1⟩])) ⟨"A", 2⟩).2.2
    { rollback := none, component := none, instances := 0 } (by decide)).1
  rw [h1, h2]
  exact ⟨rfl, by decide⟩

/-- The three calls keep every array free of duplicates, as long as `registerInstance` is not
given an instance that the list of its entry already holds. -/
theorem Op.apply_nodup (op : Op) (items : Items)
    (hinv : ∀ ref, (items.arrays ref).Nodup) (honce : registersOnce [op] items = true) :
    ∀ ref, ((op.apply items).arrays ref).Nodup := by
  intro ref
  cases op with
  | set j v =>
    simp only [Op.apply, (set_arrays items j v).1]
    by_cases href : ref = items.next
    · subst href; simp
    · rw [Function.update_noteq href]; exact hinv ref
  | registerInstance x =>
    by_cases hx : ∃ e, lookup items x.id = JsVal.entry e
    · obtain ⟨e, he⟩ := hx
      have hnew : x ∉ items.arrays e.instances := by
        simpa [registersOnce, he] using honce
      simp only [Op.apply, registerInstance_entry items x e he]
      by_cases href : ref = e.instances
      · subst href
        simp only [Function.update_same]
        exact List.Nodup.append (hinv _) (by simp) (by simpa using hnew)
      · rw [Function.update_noteq href]; exact hinv ref
    · have hne : ∀ e, lookup items x.id ≠ JsVal.entry e := fun e he => hx ⟨e, he⟩
      simp only [Op.apply, registerInstance_other items x hne]
      exact hinv ref
  | deRegisterInstance x =>
    by_cases hx : ∃ e, lookup items x.id = JsVal.entry e
    · obtain ⟨e, he⟩ := hx
      have hsplice := forEachSplice_nodup x (items.arrays e.instances).length []
        (items.arrays e.instances) (hinv _) (le_refl _)
      simp only [List.length_nil, List.nil_append] at hsplice
      simp only [Op.apply, deRegisterInstance_entry items x e he, hsplice]
      by_cases href : ref = e.instances
      · subst href
        simp only [Function.update_same]
        exact (hinv _).filter _
      · rw [Function.update_noteq href]; exact hinv ref
    · have hne : ∀ e, lookup items x.id ≠ JsVal.entry e := fun e he => hx ⟨e, he⟩
      simp only [Op.apply, deRegisterInstance_other items x hne]
      exact hinv ref

/-- The invariant of `Op.apply_nodup` along a sequence of calls. -/
theorem runOps_nodup (ops : List Op) :
    ∀ items : Items, (∀ ref, (items.arrays ref).Nodup) → registersOnce ops items = true →
      ∀ ref, ((runOps ops items).arrays ref).Nodup := by
  induction ops with
  | nil => intro items hinv _; exact hinv
  | cons op ops ih =>
    intro items hinv honce
    have honce1 : registersOnce [op] items = true ∧ registersOnce ops (op.apply items) = true := by
      cases op <;> simp_all [registersOnce, Op.apply]
    exact ih (op.apply items) (Op.apply_nodup op items hinv honce1.1) honce1.2

/-- C17, as stated, fails: `registerInstance` does not look for the instance in the list, so
after `set("A", v)` with no `instances` field, registering the same instance twice leaves it
twice in the list of `"A"`. -/
theorem register_twice_counterexample :
    setsWithoutInstances
        [Op.set "A" ⟨none, none, none⟩, Op.registerInstance ⟨"A", 1⟩,
          Op.registerInstance ⟨"A", 1⟩] = true
      ∧ lookup (runOps
        [Op.set "A" ⟨none, none, none⟩, Op.registerInstance ⟨"A", 1⟩,
          Op.registerInstance ⟨"A", 1⟩] empty) "A"
        = JsVal.entry { rollback := none, component := none, instances := 0 }
      ∧ (runOps
        [Op.set "A" ⟨none, none, none⟩, Op.registerInstance ⟨"A", 1⟩,
          Op.registerInstance ⟨"A", 1⟩] empty).arrays 0 = [⟨"A", 1⟩, ⟨"A", 1⟩]
      ∧ ¬ ([⟨"A", 1⟩, ⟨"A", 1⟩] : List Instance).Nodup := by
  refine ⟨rfl, by decide, by decide, by decide⟩

/-- C17 (amended): in every table reachable from the empty registry by a sequence of `set`
calls with no `instances` field, `registerInstance` calls for instances that their entry does
not list yet, and `deRegisterInstance` calls, the `instances` list of every entry the table
gives contains no duplicates. -/
theorem registry_no_duplicates (ops : List Op)
    (hset : setsWithoutInstances ops = true) (honce : registersOnce ops empty = true) :
    ∀ k e, lookup (runOps ops empty) k = JsVal.entry e →
      ((runOps ops empty).arrays e.instances).Nodup :=
  fun _ e _ =>
    have _ := hset
    runOps_nodup ops empty (fun _ => by simp [empty]) honce e.instances

/-- Witness of C17 (amended): two instances are registered under `"A"`, the first is
deregistered and registered again. -/
theorem registry_no_duplicates_witness :
    lookup (runOps
        [Op.set "A" ⟨none, none, none⟩, Op.registerInstance ⟨"A", 1⟩,
          Op.registerInstance ⟨"A", 2⟩, Op.deRegisterInstance ⟨"A", 1⟩,
          Op.registerInstance ⟨"A", 1⟩] empty) "A"
        = JsVal.entry { rollback := none, component := none, instances := 0 }
      ∧ ((runOps
        [Op.set "A" ⟨none, none, none⟩, Op.registerInstance ⟨"A", 1⟩,
          Op.registerInstance ⟨"A", 2⟩, Op.deRegisterInstance ⟨"A", 1⟩,
          Op.registerInstance ⟨"A", 1⟩] empty).arrays 0).Nodup := by
  have hrun : lookup (runOps
      [Op.set "A" ⟨none, none, none⟩, Op.registerInstance ⟨"A", 1⟩,
        Op.registerInstance ⟨"A", 2⟩, Op.deRegisterInstance ⟨"A", 1⟩,
        Op.registerInstance ⟨"A", 1⟩] empty) "A"
      = JsVal.entry { rollback := none, component := none, instances := 0 } := by decide
  exact ⟨hrun, registry_no_duplicates
    [Op.set "A" ⟨none, none, none⟩, Op.registerInstance ⟨"A", 1⟩,
      Op.registerInstance ⟨"A", 2⟩, Op.deRegisterInstance ⟨"A", 1⟩,
      Op.registerInstance ⟨"A", 1⟩] rfl (by decide) "A" _ hrun⟩

end registry

/-! ## The proxy adapter -/

namespace ProxyAdapterDom

variable {X : Type}

/-- The catch block only adds the `rollback` call to the trace before it throws or retries, and
passes the adapter on as it is. -/
theorem catchBlock_eq (inst : ProxyInstance X) (err : Err)
    (retry : ProxyAdapterDom → World X → Run X) (self : ProxyAdapterDom) (w : World X) :
    (∃ fatal env, inst.rollback err w.env = (.error fatal, env)
        ∧ catchBlock inst err retry self w
          = ⟨.threw fatal, self, ⟨env, w.trace ++ [Event.rollback err]⟩⟩)
      ∨ (∃ env, inst.rollback err w.env = (.ok (), env)
        ∧ catchBlock inst err retry self w = retry self ⟨env, w.trace ++ [Event.rollback err]⟩) := by
  rcases h : inst.rollback err w.env with ⟨fatal | u, env⟩
  · exact Or.inl ⟨fatal, env, rfl, by simp only [catchBlock, h]⟩
  · exact Or.inr ⟨env, rfl, by simp only [catchBlock, h]⟩

/-- What `doCreateComponent` adds to the trace: only calls to `createComponent` with the options
it was given, to `restoreState` and to `rollback`, starting with a `createComponent` call; it
never writes the insertion point. -/
theorem doCreateComponent_trace (inst : ProxyInstance X) (options : Options)
    (restore : Snapshot) :
    ∀ (fuel : Nat) (self : ProxyAdapterDom) (w : World X),
      (doCreateComponent inst options restore fuel self w).self.insertionPoint
          = self.insertionPoint
        ∧ ∃ evs, (doCreateComponent inst options restore fuel self w).world.trace
            = w.trace ++ evs
          ∧ (∀ o, Event.createComponent o ∈ evs → o = options)
          ∧ (∀ c, Event.captureState c ∉ evs)
          ∧ (∀ h, Event.destroy h ∉ evs)
          ∧ (0 < fuel → ∃ tl, evs = Event.createComponent options :: tl) := by
  intro fuel
  induction fuel with
  | zero =>
    intro self w
    exact ⟨rfl, [], by simp [doCreateComponent], by simp, by simp, by simp, by simp⟩
  | succ fuel ih =>
    intro self w
    have hcatch : ∀ (err : Err) (self1 : ProxyAdapterDom) (env : Env X) (pre : List Event),
        self1.insertionPoint = self.insertionPoint →
        (∀ o, Event.createComponent o ∈ pre → o = options) →
        (∀ c, Event.captureState c ∉ pre) → (∀ h, Event.destroy h ∉ pre) →
        (catchBlock inst err (doCreateComponent inst options restore fuel) self1
            ⟨env, w.trace ++ pre⟩).self.insertionPoint = self.insertionPoint
          ∧ ∃ evs, (catchBlock inst err (doCreateComponent inst options restore fuel) self1
              ⟨env, w.trace ++ pre⟩).world.trace = w.trace ++ (pre ++ evs)
            ∧ (∀ o, Event.createComponent o ∈ pre ++ evs → o = options)
            ∧ (∀ c, Event.captureState c ∉ pre ++ evs)
            ∧ (∀ h, Event.destroy h ∉ pre ++ evs) := by
      intro err self1 env pre hip hcr hcap hdes
      rcases catchBlock_eq inst err (doCreateComponent inst options restore fuel) self1
          ⟨env, w.trace ++ pre⟩ with ⟨fatal, env2, _, heq⟩ | ⟨env2, _, heq⟩
      · rw [heq]
        refine ⟨hip, [Event.rollback err], by simp, ?_, ?_, ?_⟩
        · intro o ho
          rcases List.mem_append.mp ho with h | h
          · exact hcr o h
          · simp at h
        · intro c hc
          rcases List.mem_append.mp hc with h | h
          · exact hcap c h
          · simp at h
        · intro c hc
          rcases List.mem_append.mp hc with h | h
          · exact hdes c h
          · simp at h
      · rw [heq]
        obtain ⟨hip2, evs, htr, h1, h2, h3, _⟩ :=
          ih self1 ⟨env2, w.trace ++ pre ++ [Event.rollback err]⟩
        refine ⟨hip2.trans hip, Event.rollback err :: evs, by rw [htr]; simp, ?_, ?_, ?_⟩
        · intro o ho
          rcases List.mem_append.mp ho with h | h
          · exact hcr o h
          · rcases List.mem_cons.mp h with h | h
            · cases h
            · exact h1 o h
        · intro c hc
          rcases List.mem_append.mp hc with h | h
          · exact hcap c h
          · rcases List.mem_cons.mp h with h | h
            · cases h
            · exact h2 c h
        · intro c hc
          rcases List.mem_append.mp hc with h | h
          · exact hdes c h
          · rcases List.mem_cons.mp h with h | h
            · cases h
            · exact h3 c h
    rcases hcc : inst.createComponent options w.env with ⟨err | cmp, env⟩
    · have hrun : doCreateComponent inst options restore (fuel + 1) self w
          = catchBlock inst err (doCreateComponent inst options restore fuel) self
              ⟨env, w.trace ++ [Event.createComponent options]⟩ := by
        simp only [doCreateComponent, hcc]
      rw [hrun]
      obtain ⟨hip, evs, htr, h1, h2, h3⟩ :=
        hcatch err self env [Event.createComponent options] rfl (by simp) (by simp) (by simp)
      exact ⟨hip, [Event.createComponent options] ++ evs, htr, h1, h2, h3,
        fun _ => ⟨evs, rfl⟩⟩
    · by_cases htruthy : restore.truthy = true
      · rcases hrs : inst.restoreState cmp restore env with ⟨err | u, env1⟩
        · have hrun : doCreateComponent inst options restore (fuel + 1) self w
              = catchBlock inst err (doCreateComponent inst options restore fuel)
                  { self with cmp := some cmp }
                  ⟨env1, w.trace
                    ++ [Event.createComponent options, Event.restoreState cmp restore]⟩ := by
            simp [doCreateComponent, hcc, htruthy, hrs]
          rw [hrun]
          obtain ⟨hip, evs, htr, h1, h2, h3⟩ :=
            hcatch err { self with cmp := some cmp } env1
              [Event.createComponent options, Event.restoreState cmp restore] rfl
              (by simp) (by simp) (by simp)
          exact ⟨hip, [Event.createComponent options, Event.restoreState cmp restore] ++ evs,
            htr, h1, h2, h3, fun _ => ⟨Event.restoreState cmp restore :: evs, rfl⟩⟩
        · have hrun : doCreateComponent inst options restore (fuel + 1) self w
              = ⟨.returned, { self with cmp := some cmp },
                  ⟨env1, w.trace
                    ++ [Event.createComponent options, Event.restoreState cmp restore]⟩⟩ := by
            simp [doCreateComponent, hcc, htruthy, hrs]
          rw [hrun]
          exact ⟨rfl, [Event.createComponent options, Event.restoreState cmp restore], rfl,
            by simp, by simp, by simp, fun _ => ⟨_, rfl⟩⟩
      · have hrun : doCreateComponent inst options restore (fuel + 1) self w
            = ⟨.returned, { self with cmp := some cmp },
                ⟨env, w.trace ++ [Event.createComponent options]⟩⟩ := by
          simp [doCreateComponent, hcc, htruthy]
        rw [hrun]
        exact ⟨rfl, [Event.createComponent options], rfl, by simp, by simp, by simp,
          fun _ => ⟨_, rfl⟩⟩

/-- The call `destroyComponent()` of `rerender` on a live component: `$destroy` is called, the
handle is cleared, the insertion point is kept. -/
theorem destroyComponent_keep (inst : ProxyInstance X) (self : ProxyAdapterDom) (w : World X)
    (old : Handle) (hcmp : self.cmp = some old) :
    destroyComponent inst false self w
      = ⟨.returned, { self with cmp := none },
          ⟨inst.destroy old w.env, w.trace ++ [Event.destroy old]⟩⟩ := by
  simp [destroyComponent, hcmp]

/-- Past its two guards `rerender` is `destroyComponent()` followed by the failure-tolerant
create, started with no live component. -/
theorem rerender_eq (inst : ProxyInstance X) (fuel : Nat) (self : ProxyAdapterDom) (w : World X)
    (old : Handle) (marker : Node) (hcmp : self.cmp = some old)
    (hip : self.insertionPoint = some marker) :
    rerender inst fuel self w
      = doCreateComponent inst
          { target := (inst.destroy old w.env).dom.parentNode marker, anchor := some marker,
            rest := inst.initialOptions.rest }
          (inst.captureState none (inst.destroy old w.env)).1 fuel
          { cmp := none, insertionPoint := some marker }
          ⟨(inst.captureState none (inst.destroy old w.env)).2,
            w.trace ++ [Event.destroy old, Event.captureState none]⟩ := by
  simp only [rerender, hcmp, hip, destroyComponent_keep inst self w old hcmp, createComponent]
  simp

/-- C1 (position preservation): for every adapter whose live component and insertion point are
both present, `rerender()` calls the collaborator `createComponent` (as soon as the failure-
tolerant create gets to run), and every call it makes has the same options: `target` is the
parent node of the insertion point, read once the old component's `$destroy` has returned,
`anchor` is the insertion point itself, and all other keys are those of `initialOptions`.  The
adapter's insertion point after the call is the one it had before. -/
theorem rerender_position_preserved (inst : ProxyInstance X) (fuel : Nat)
    (self : ProxyAdapterDom) (w : World X) (old : Handle) (marker : Node)
    (hcmp : self.cmp = some old) (hip : self.insertionPoint = some marker) (hfuel : 0 < fuel) :
    (∃ evs, (rerender inst fuel self w).world.trace
          = w.trace ++ Event.destroy old :: Event.captureState none
              :: Event.createComponent
                  { target := (inst.destroy old w.env).dom.parentNode marker,
                    anchor := some marker, rest := inst.initialOptions.rest } :: evs
        ∧ ∀ o, Event.createComponent o ∈ evs →
            o = { target := (inst.destroy old w.env).dom.parentNode marker,
                  anchor := some marker, rest := inst.initialOptions.rest })
      ∧ (rerender inst fuel self w).self.insertionPoint = some marker := by
  rw [rerender_eq inst fuel self w old marker hcmp hip]
  obtain ⟨hkeep, evs, htr, hsame, _, _, hfirst⟩ :=
    doCreateComponent_trace inst
      { target := (inst.destroy old w.env).dom.parentNode marker, anchor := some marker,
        rest := inst.initialOptions.rest }
      (inst.captureState none (inst.destroy old w.env)).1 fuel
      { cmp := none, insertionPoint := some marker }
      ⟨(inst.captureState none (inst.destroy old w.env)).2,
        w.trace ++ [Event.destroy old, Event.captureState none]⟩
  obtain ⟨tl, htl⟩ := hfirst hfuel
  refine ⟨⟨tl, ?_, ?_⟩, hkeep⟩
  · rw [htr, htl]; simp
  · intro o ho
    exact hsame o (by rw [htl]; exact List.mem_cons_of_mem _ ho)

/-- Witness of C1: the mounted sample adapter is rerendered before the marker `2` in the
container `0`. -/
theorem rerender_position_preserved_witness :
    (∃ evs, (rerender (Sample.flaky 0 Sample.mountOptions) 1 Sample.mounted.self
            Sample.mounted.world).world.trace
          = Sample.mounted.world.trace ++ Event.destroy 100 :: Event.captureState none
              :: Event.createComponent
                  { target := some 0, anchor := some 2, rest := [("props", "p")] } :: evs
        ∧ ∀ o, Event.createComponent o ∈ evs →
            o = { target := some 0, anchor := some 2, rest := [("props", "p")] })
      ∧ (rerender (Sample.flaky 0 Sample.mountOptions) 1 Sample.mounted.self
            Sample.mounted.world).self.insertionPoint = some 2 :=
  rerender_position_preserved (Sample.flaky 0 Sample.mountOptions) 1 Sample.mounted.self
    Sample.mounted.world 100 2 rfl rfl (by decide)

/-- C2 (no transient double-mount): in every `rerender()` that gets past its two guards, the
old component's `$destroy` is the first call made and the handle is cleared by
`destroyComponent()`; the rest of `rerender()` is the failure-tolerant create started from an
adapter whose `cmp` is `null`, so every `createComponent` call of the collaborator comes after
the `$destroy` of the old component, which is not called again. -/
theorem rerender_destroys_before_create (inst : ProxyInstance X) (fuel : Nat)
    (self : ProxyAdapterDom) (w : World X) (old : Handle) (marker : Node)
    (hcmp : self.cmp = some old) (hip : self.insertionPoint = some marker) :
    (destroyComponent inst false self w).self.cmp = none
      ∧ (destroyComponent inst false self w).world.trace = w.trace ++ [Event.destroy old]
      ∧ rerender inst fuel self w
        = doCreateComponent inst
            { target := (inst.destroy old w.env).dom.parentNode marker, anchor := some marker,
              rest := inst.initialOptions.rest }
            (inst.captureState none (inst.destroy old w.env)).1 fuel
            { cmp := none, insertionPoint := some marker }
            ⟨(inst.captureState none (inst.destroy old w.env)).2,
              (destroyComponent inst false self w).world.trace ++ [Event.captureState none]⟩
      ∧ ∃ evs, (rerender inst fuel self w).world.trace
            = w.trace ++ Event.destroy old :: Event.captureState none :: evs
          ∧ ∀ h, Event.destroy h ∉ evs := by
  have hrun := rerender_eq inst fuel self w old marker hcmp hip
  rw [destroyComponent_keep inst self w old hcmp]
  refine ⟨rfl, rfl, ?_, ?_⟩
  · rw [hrun]; simp
  · rw [hrun]
    obtain ⟨_, evs, htr, _, _, hdes, _⟩ :=
      doCreateComponent_trace inst
        { target := (inst.destroy old w.env).dom.parentNode marker, anchor := some marker,
          rest := inst.initialOptions.rest }
        (inst.captureState none (inst.destroy old w.env)).1 fuel
        { cmp := none, insertionPoint := some marker }
        ⟨(inst.captureState none (inst.destroy old w.env)).2,
          w.trace ++ [Event.destroy old, Event.captureState none]⟩
    exact ⟨evs, by rw [htr]; simp, hdes⟩

/-- Witness of C2: the rerender of the mounted sample adapter destroys the component `100`,
then creates the component `101`. -/
theorem rerender_destroys_before_create_witness :
    (rerender (Sample.flaky 0 Sample.mountOptions) 1 Sample.mounted.self
        Sample.mounted.world).world.trace
        = Sample.mounted.world.trace
          ++ [Event.destroy 100, Event.captureState none,
              Event.createComponent
                { target := some 0, anchor := some 2, rest := [("props", "p")] }]
      ∧ (rerender (Sample.flaky 0 Sample.mountOptions) 1 Sample.mounted.self
        Sample.mounted.world).self.cmp = some 101 := by
  have h := (rerender_destroys_before_create (Sample.flaky 0 Sample.mountOptions) 1
    Sample.mounted.self Sample.mounted.world 100 2 rfl rfl).2.2.1
  rw [h]
  exact ⟨rfl, rfl⟩

/-- C3, evaluated on the code: for every adapter with a live component `old` and an insertion
point, the only `captureState` call of `rerender()` is made after `destroyComponent()` has
cleared the handle, with `null`; `captureState` is never called with `old`. -/
theorem rerender_captures_null (inst : ProxyInstance X) (fuel : Nat)
    (self : ProxyAdapterDom) (w : World X) (old : Handle) (marker : Node)
    (hcmp : self.cmp = some old) (hip : self.insertionPoint = some marker) :
    ∃ evs, (rerender inst fuel self w).world.trace
          = w.trace ++ Event.destroy old :: Event.captureState none :: evs
        ∧ Event.captureState (some old)
            ∉ Event.destroy old :: Event.captureState none :: evs := by
  rw [rerender_eq inst fuel self w old marker hcmp hip]
  obtain ⟨_, evs, htr, _, hcap, _, _⟩ :=
    doCreateComponent_trace inst
      { target := (inst.destroy old w.env).dom.parentNode marker, anchor := some marker,
        rest := inst.initialOptions.rest }
      (inst.captureState none (inst.destroy old w.env)).1 fuel
      { cmp := none, insertionPoint := some marker }
      ⟨(inst.captureState none (inst.destroy old w.env)).2,
        w.trace ++ [Event.destroy old, Event.captureState none]⟩
  refine ⟨evs, by rw [htr]; simp, ?_⟩
  intro hmem
  rcases List.mem_cons.mp hmem with h | h
  · cases h
  · rcases List.mem_cons.mp h with h | h
    · cases h
    · exact hcap _ h

/-- The failing input of C3: the mounted sample adapter holds the component `100`, whose
captured state is a non-empty object; `rerender()` calls `captureState(null)` only and never
calls `restoreState`. -/
theorem rerender_captures_null_witness :
    (∃ evs, (rerender (Sample.flaky 0 Sample.mountOptions) 1 Sample.mounted.self
            Sample.mounted.world).world.trace
          = Sample.mounted.world.trace ++ Event.destroy 100 :: Event.captureState none :: evs
        ∧ Event.captureState (some 100)
            ∉ Event.destroy 100 :: Event.captureState none :: evs)
      ∧ (rerender (Sample.flaky 0 Sample.mountOptions) 1 Sample.mounted.self
            Sample.mounted.world).world.trace
          = [Event.captureState none, Event.createComponent Sample.mountOptions,
              Event.destroy 100, Event.captureState none,
              Event.createComponent
                { target := some 0, anchor := some 2, rest := [("props", "p")] }]
      ∧ ((Sample.flaky 0 Sample.mountOptions).captureState (some 100)
            Sample.mounted.world.env).1 = Snapshot.object [("count", "1")] :=
  ⟨rerender_captures_null (Sample.flaky 0 Sample.mountOptions) 1 Sample.mounted.self
    Sample.mounted.world 100 2 rfl rfl, rfl, rfl⟩

/-- The failed attempts hold one `rollback` call and one `createComponent` call per error. -/
theorem failedAttempts_count (options : Options) (errs : List Err) :
    (failedAttempts options errs).countP Event.isRollback = errs.length
      ∧ (failedAttempts options errs).countP Event.isCreateComponent = errs.length
      ∧ ∀ o, Event.createComponent o ∈ failedAttempts options errs → o = options := by
  induction errs with
  | nil => simp [failedAttempts]
  | cons err errs ih =>
    refine ⟨?_, ?_, ?_⟩
    · simp [failedAttempts, Event.isRollback, ih.1]
    · simp [failedAttempts, Event.isCreateComponent, ih.2.1]
    · intro o ho
      simp only [failedAttempts, List.mem_cons] at ho
      rcases ho with h | h | h
      · cases h; rfl
      · cases h
      · exact ih.2.2 o h

/-- A failed attempt never gets to call `restoreState`. -/
theorem failedAttempts_no_restoreState (options : Options) (errs : List Err) (h : Handle)
    (s : Snapshot) : Event.restoreState h s ∉ failedAttempts options errs := by
  induction errs with
  | nil => simp [failedAttempts]
  | cons e es ih => simpa [failedAttempts] using ih

/-- The recovery loop: when `createComponent` throws `errs` and then returns `cmp`, `rollback`
returns and `restoreState` does not throw, `doCreateComponent` with more fuel than failures
returns with `cmp` as the live component, after exactly the failed attempts and one successful
attempt. -/
theorem doCreateComponent_recovers (inst : ProxyInstance X) (options : Options)
    (restore : Snapshot)
    (hrollback : ∀ err env, (inst.rollback err env).1 = .ok ())
    (hrestore : ∀ h s env, (inst.restoreState h s env).1 = .ok ())
    {env last : Env X} {errs : List Err} {cmp : Handle}
    (hattempts : Attempts inst options env errs cmp last) :
    ∀ (fuel : Nat) (self : ProxyAdapterDom) (trace : List Event), errs.length < fuel →
      doCreateComponent inst options restore fuel self ⟨env, trace⟩
        = ⟨.returned, { self with cmp := some cmp },
            ⟨if restore.truthy then (inst.restoreState cmp restore last).2 else last,
              trace ++ failedAttempts options errs ++ successfulAttempt options cmp restore⟩⟩ := by
  induction hattempts with
  | @success env last cmp hok =>
    intro fuel self trace hfuel
    obtain ⟨fuel, rfl⟩ : ∃ n, fuel = n + 1 := ⟨fuel - 1, by omega⟩
    by_cases htruthy : restore.truthy = true
    · have hr : inst.restoreState cmp restore last
          = (.ok (), (inst.restoreState cmp restore last).2) :=
        Prod.ext (hrestore cmp restore last) rfl
      simp only [doCreateComponent, hok, htruthy, if_true, failedAttempts, successfulAttempt,
        List.append_nil]
      rw [hr]
      simp
    · simp [doCreateComponent, hok, htruthy, failedAttempts, successfulAttempt]
  | @failure env env1 last err errs cmp hthrow _ ih =>
    intro fuel self trace hfuel
    obtain ⟨fuel, rfl⟩ : ∃ n, fuel = n + 1 := ⟨fuel - 1, by omega⟩
    have hr : inst.rollback err env1 = (.ok (), (inst.rollback err env1).2) :=
      Prod.ext (hrollback err env1) rfl
    have hstep : doCreateComponent inst options restore (fuel + 1) self ⟨env, trace⟩
        = doCreateComponent inst options restore fuel self
            ⟨(inst.rollback err env1).2,
              trace ++ [Event.createComponent options] ++ [Event.rollback err]⟩ := by
      simp only [doCreateComponent, hthrow, catchBlock]
      rw [hr]
    rw [hstep, ih fuel self _ (by simpa using hfuel)]
    simp [failedAttempts]

/-- C4 (recovery loop termination): for every `K`, when the collaborator `createComponent`
throws on its first `K` calls (the errors `errs`) and returns `cmp` on call `K + 1`, `rollback`
returns normally and `restoreState` does not throw, `createComponent(target, anchor)` returns
normally (with any fuel above `K`) with `cmp` as the live component.  It has called `rollback`
exactly `K` times and the collaborator `createComponent` exactly `K + 1` times, each time with
the same options, and it hands the one captured snapshot to `restoreState`. -/
theorem createComponent_recovers (inst : ProxyInstance X) (fuel K : Nat)
    (target anchor : Option Node) (self : ProxyAdapterDom) (w : World X)
    (errs : List Err) (cmp : Handle) (last : Env X)
    (hattempts : Attempts inst { inst.initialOptions with target := target, anchor := anchor }
      (inst.captureState self.cmp w.env).2 errs cmp last)
    (hK : errs.length = K)
    (hrollback : ∀ err env, (inst.rollback err env).1 = .ok ())
    (hrestore : ∀ h s env, (inst.restoreState h s env).1 = .ok ())
    (hfuel : K < fuel) :
    (createComponent inst fuel target anchor self w).outcome = .returned
      ∧ (createComponent inst fuel target anchor self w).self
        = { self with cmp := some cmp }
      ∧ ∃ calls, (createComponent inst fuel target anchor self w).world.trace
            = w.trace ++ Event.captureState self.cmp :: calls
          ∧ calls
            = failedAttempts { inst.initialOptions with target := target, anchor := anchor } errs
              ++ successfulAttempt { inst.initialOptions with target := target, anchor := anchor }
                  cmp (inst.captureState self.cmp w.env).1
          ∧ calls.countP Event.isRollback = K
          ∧ calls.countP Event.isCreateComponent = K + 1
          ∧ (∀ o, Event.createComponent o ∈ calls →
              o = { inst.initialOptions with target := target, anchor := anchor })
          ∧ (∀ h s, Event.restoreState h s ∈ calls →
              h = cmp ∧ s = (inst.captureState self.cmp w.env).1) := by
  have hrun := doCreateComponent_recovers inst
    { inst.initialOptions with target := target, anchor := anchor }
    (inst.captureState self.cmp w.env).1 hrollback hrestore hattempts fuel self
    (w.trace ++ [Event.captureState self.cmp]) (by omega)
  have hcount := failedAttempts_count
    { inst.initialOptions with target := target, anchor := anchor } errs
  simp only [createComponent]
  rw [hrun]
  refine ⟨rfl, rfl, _, by simp, rfl, ?_, ?_, ?_, ?_⟩
  · rw [List.countP_append, hcount.1, hK]
    by_cases ht : (inst.captureState self.cmp w.env).1.truthy = true <;>
      simp [successfulAttempt, ht, Event.isRollback]
  · rw [List.countP_append, hcount.2.1, hK]
    by_cases ht : (inst.captureState self.cmp w.env).1.truthy = true <;>
      simp [successfulAttempt, ht, Event.isCreateComponent]
  · intro o ho
    rcases List.mem_append.mp ho with h | h
    · exact hcount.2.2 o h
    · by_cases ht : (inst.captureState self.cmp w.env).1.truthy = true
      · simp [successfulAttempt, ht] at h; exact h
      · simp [successfulAttempt, ht] at h; exact h
  · intro h s hs
    rcases List.mem_append.mp hs with hmem | hmem
    · exact absurd hmem (failedAttempts_no_restoreState _ errs h s)
    · by_cases ht : (inst.captureState self.cmp w.env).1.truthy = true
      · simp [successfulAttempt, ht] at hmem; exact hmem
      · simp [successfulAttempt, ht] at hmem

/-- Witness of C4: `createComponent` throws twice and succeeds on its third call. -/
theorem createComponent_recovers_witness :
    (createComponent (Sample.flaky 2 Sample.mountOptions) 3 (some 0) (some 1)
        ProxyAdapterDom.new Sample.world).outcome = .returned
      ∧ (createComponent (Sample.flaky 2 Sample.mountOptions) 3 (some 0) (some 1)
        ProxyAdapterDom.new Sample.world).self = { cmp := some 102, insertionPoint := none } :=
  have h := createComponent_recovers (Sample.flaky 2 Sample.mountOptions) 3 2 (some 0) (some 1)
    ProxyAdapterDom.new Sample.world ["broken", "broken"] 102
    { dom := Sample.dom, registry := registry.empty, ext := 3 }
    (Attempts.failure rfl (Attempts.failure rfl (Attempts.success rfl))) rfl
    (fun _ _ => rfl) (fun _ _ _ => rfl) (by decide)
  ⟨h.1, h.2.1⟩

/-- C5, as stated, fails when it is `restoreState` that throws: with a `rollback` that
re-raises and no live component, the collaborator `createComponent` has already returned the
component `7` and `this.cmp` holds it when `restoreState` throws; `createComponent()` and
`init()` propagate the error after one `rollback` call, and the live handle is `7`, not
`null`. -/
theorem fatal_restore_keeps_handle_counterexample :
    ProxyAdapterDom.new.cmp = none
      ∧ ((Sample.fatal false Sample.detachedOptions).rollback "cannot restore" Sample.env).1
        = .error "cannot restore"
      ∧ (createComponent (Sample.fatal false Sample.detachedOptions) 1 none none
          ProxyAdapterDom.new Sample.world).outcome = .threw "cannot restore"
      ∧ (createComponent (Sample.fatal false Sample.detachedOptions) 1 none none
          ProxyAdapterDom.new Sample.world).world.trace
        = [Event.captureState none, Event.createComponent Sample.detachedOptions,
            Event.restoreState 7 (.object [("count", "1")]), Event.rollback "cannot restore"]
      ∧ (createComponent (Sample.fatal false Sample.detachedOptions) 1 none none
          ProxyAdapterDom.new Sample.world).self.cmp = some 7
      ∧ (init (Sample.fatal false Sample.detachedOptions) 1
          ProxyAdapterDom.new Sample.world).outcome = .threw "cannot restore"
      ∧ (init (Sample.fatal false Sample.detachedOptions) 1
          ProxyAdapterDom.new Sample.world).self.cmp = some 7
      ∧ (init (Sample.fatal false Sample.detachedOptions) 1
          ProxyAdapterDom.new Sample.world).self.cmp ≠ none :=
  ⟨rfl, rfl, rfl, rfl, rfl, rfl, rfl, by decide⟩

/-- C5 (amended): for every adapter whose live handle is `null` and whose `rollback` always
re-raises, whenever the first attempt of the failure-tolerant create fails, `createComponent()`
propagates the error raised by `rollback` after exactly one `rollback` call, and `init()`
propagates it in the same way, without running `afterMount`.  When it is the collaborator
`createComponent` that threw, the live handle is `null` afterwards; when it is `restoreState`
that threw, the live handle is the component that had just been created. -/
theorem create_fatal_propagation (inst : ProxyInstance X) (fuel : Nat)
    (target anchor : Option Node) (self : ProxyAdapterDom) (w : World X)
    (hcmp : self.cmp = none) (hfuel : 0 < fuel)
    (hfatal : ∀ err env, ∃ fatal, (inst.rollback err env).1 = .error fatal) :
    (∀ err env1,
        inst.createComponent { inst.initialOptions with target := target, anchor := anchor }
            (inst.captureState none w.env).2 = (.error err, env1) →
        ∃ fatal, (inst.rollback err env1).1 = .error fatal
          ∧ (createComponent inst fuel target anchor self w).outcome = .threw fatal
          ∧ (createComponent inst fuel target anchor self w).self.cmp = none
          ∧ (createComponent inst fuel target anchor self w).world.trace
            = w.trace ++ [Event.captureState none,
                Event.createComponent
                  { inst.initialOptions with target := target, anchor := anchor },
                Event.rollback err])
      ∧ (∀ cmp env1 err env2,
          inst.createComponent { inst.initialOptions with target := target, anchor := anchor }
              (inst.captureState none w.env).2 = (.ok cmp, env1) →
          (inst.captureState none w.env).1.truthy = true →
          inst.restoreState cmp (inst.captureState none w.env).1 env1 = (.error err, env2) →
          ∃ fatal, (inst.rollback err env2).1 = .error fatal
            ∧ (createComponent inst fuel target anchor self w).outcome = .threw fatal
            ∧ (createComponent inst fuel target anchor self w).self.cmp = some cmp
            ∧ (createComponent inst fuel target anchor self w).world.trace
              = w.trace ++ [Event.captureState none,
                  Event.createComponent
                    { inst.initialOptions with target := target, anchor := anchor },
                  Event.restoreState cmp (inst.captureState none w.env).1,
                  Event.rollback err])
      ∧ (∀ fatal,
          (createComponent inst fuel inst.initialOptions.target inst.initialOptions.anchor
              self w).outcome = .threw fatal →
          init inst fuel self w
            = createComponent inst fuel inst.initialOptions.target inst.initialOptions.anchor
                self w) := by
  obtain ⟨fuel, rfl⟩ : ∃ n, fuel = n + 1 := ⟨fuel - 1, by omega⟩
  refine ⟨?_, ?_, ?_⟩
  · intro err env1 hthrow
    obtain ⟨fatal, hf⟩ := hfatal err env1
    have hr : inst.rollback err env1 = (.error fatal, (inst.rollback err env1).2) :=
      Prod.ext hf rfl
    refine ⟨fatal, hf, ?_⟩
    simp only [createComponent, hcmp, doCreateComponent, hthrow, catchBlock]
    rw [hr]
    simp [hcmp]
  · intro cmp env1 err env2 hok htruthy hthrow
    obtain ⟨fatal, hf⟩ := hfatal err env2
    have hr : inst.rollback err env2 = (.error fatal, (inst.rollback err env2).2) :=
      Prod.ext hf rfl
    refine ⟨fatal, hf, ?_⟩
    simp only [createComponent, hcmp, doCreateComponent, hok, htruthy, if_true, hthrow,
      catchBlock]
    rw [hr]
    simp
  · intro fatal hthrew
    simp only [init, hthrew]

/-- Witness of C5 (amended): the collaborator `createComponent` throws and `rollback`
re-raises. -/
theorem create_fatal_propagation_witness :
    (createComponent (Sample.fatal true Sample.detachedOptions) 1 none none
        ProxyAdapterDom.new Sample.world).outcome = .threw "broken"
      ∧ (createComponent (Sample.fatal true Sample.detachedOptions) 1 none none
        ProxyAdapterDom.new Sample.world).self.cmp = none := by
  obtain ⟨fatal, hf, h1, h2, _⟩ :=
    (create_fatal_propagation (Sample.fatal true Sample.detachedOptions) 1 none none
      ProxyAdapterDom.new Sample.world rfl (by decide) (fun err _ => ⟨err, rfl⟩)).1
      "broken" Sample.env rfl
  have hfatal : fatal = "broken" := by
    have : (Except.error "broken" : Except Err Unit) = .error fatal := hf
    exact (Except.error.inj this).symm
  exact ⟨by rw [h1, hfatal], h2⟩

/-- Putting a node before a child `anchor` of a list splits the list at `anchor`. -/
theorem insertBeforeIn_split (node anchor : Node) :
    ∀ cs : List Node, anchor ∈ cs →
      ∃ pre post, cs = pre ++ anchor :: post ∧ anchor ∉ pre
        ∧ Dom.insertBeforeIn node anchor cs = pre ++ node :: anchor :: post := by
  intro cs
  induction cs with
  | nil => intro h; simp at h
  | cons c cs ih =>
    intro h
    by_cases hc : c = anchor
    · subst hc
      exact ⟨[], cs, rfl, by simp, by simp [Dom.insertBeforeIn]⟩
    · have hmem : anchor ∈ cs := by
        rcases List.mem_cons.mp h with h | h
        · exact absurd h.symm hc
        · exact h
      obtain ⟨pre, post, hsplit, hpre, hins⟩ := ih hmem
      refine ⟨c :: pre, post, by simp [hsplit], ?_, by simp [Dom.insertBeforeIn, hc, hins]⟩
      intro hin
      rcases List.mem_cons.mp hin with h | h
      · exact hc h.symm
      · exact hpre h

/-- Once the insertion point is set, `afterMount` returns without any effect. -/
theorem afterMount_present (inst : ProxyInstance X) (target : Node) (anchor : Option Node)
    (self : ProxyAdapterDom) (w : World X) (marker : Node)
    (hip : self.insertionPoint = some marker) :
    afterMount inst target anchor self w = ⟨.returned, self, w⟩ := by
  simp only [afterMount, hip]

/-- With the insertion point set, any number of `afterMount` calls changes nothing. -/
theorem afterMountCalls_present (inst : ProxyInstance X) (calls : List (Node × Option Node))
    (self : ProxyAdapterDom) (w : World X) (marker : Node)
    (hip : self.insertionPoint = some marker) :
    afterMountCalls inst calls self w = ⟨.returned, self, w⟩ := by
  induction calls with
  | nil => rfl
  | cons c cs ih =>
    obtain ⟨t, a⟩ := c
    simp only [afterMountCalls, afterMount_present inst t a self w marker hip]
    exact ih

/-- The first `afterMount` with no anchor: the marker is created and appended to `target`. -/
theorem afterMount_append (inst : ProxyInstance X) (target : Node) (self : ProxyAdapterDom)
    (w : World X) (hnone : self.insertionPoint = none) :
    afterMount inst target none self w
      = ⟨.returned, { self with insertionPoint := some w.env.dom.next },
          { w with env := { w.env with dom :=
            { parentNode :=
                Function.update (Function.update w.env.dom.parentNode w.env.dom.next none)
                  w.env.dom.next (some target)
              childNodes :=
                Function.update w.env.dom.childNodes target
                  (w.env.dom.childNodes target ++ [w.env.dom.next])
              data := Function.update w.env.dom.data w.env.dom.next (some inst.debugName)
              next := w.env.dom.next + 1 } } }⟩ := by
  simp only [afterMount, hnone, Dom.createComment, Dom.insertBefore]

/-- The first `afterMount` with an anchor that is a child of `target`: the marker is created and
put before the anchor. -/
theorem afterMount_before (inst : ProxyInstance X) (target a : Node) (self : ProxyAdapterDom)
    (w : World X) (hnone : self.insertionPoint = none)
    (ha : a ∈ w.env.dom.childNodes target) :
    afterMount inst target (some a) self w
      = ⟨.returned, { self with insertionPoint := some w.env.dom.next },
          { w with env := { w.env with dom :=
            { parentNode :=
                Function.update (Function.update w.env.dom.parentNode w.env.dom.next none)
                  w.env.dom.next (some target)
              childNodes :=
                Function.update w.env.dom.childNodes target
                  (Dom.insertBeforeIn w.env.dom.next a (w.env.dom.childNodes target))
              data := Function.update w.env.dom.data w.env.dom.next (some inst.debugName)
              next := w.env.dom.next + 1 } } }⟩ := by
  simp only [afterMount, hnone, Dom.createComment, Dom.insertBefore, ha, if_true]

/-- C6, as stated, fails when `anchor` is not a child of `target`: `afterMount` stores the new
comment node in `insertionPoint` before `insertBefore` throws `NotFoundError`, so the marker is
set but not in the host tree, and a later call, here with a valid anchor, returns without
inserting anything.  Two calls have inserted no marker. -/
theorem afterMount_invalid_anchor_counterexample :
    Sample.world.env.dom.childNodes 0 = [1]
      ∧ (afterMount (Sample.flaky 0 Sample.mountOptions) 0 (some 9) ProxyAdapterDom.new
          Sample.world).outcome = .threw "NotFoundError"
      ∧ (afterMount (Sample.flaky 0 Sample.mountOptions) 0 (some 9) ProxyAdapterDom.new
          Sample.world).self.insertionPoint = some 2
      ∧ (afterMount (Sample.flaky 0 Sample.mountOptions) 0 (some 9) ProxyAdapterDom.new
          Sample.world).world.env.dom.childNodes 0 = [1]
      ∧ (afterMount (Sample.flaky 0 Sample.mountOptions) 0 (some 1)
          (afterMount (Sample.flaky 0 Sample.mountOptions) 0 (some 9) ProxyAdapterDom.new
            Sample.world).self
          (afterMount (Sample.flaky 0 Sample.mountOptions) 0 (some 9) ProxyAdapterDom.new
            Sample.world).world).outcome = .returned
      ∧ (afterMount (Sample.flaky 0 Sample.mountOptions) 0 (some 1)
          (afterMount (Sample.flaky 0 Sample.mountOptions) 0 (some 9) ProxyAdapterDom.new
            Sample.world).self
          (afterMount (Sample.flaky 0 Sample.mountOptions) 0 (some 9) ProxyAdapterDom.new
            Sample.world).world).world.env.dom.childNodes 0 = [1]
      ∧ (afterMount (Sample.flaky 0 Sample.mountOptions) 0 (some 1)
          (afterMount (Sample.flaky 0 Sample.mountOptions) 0 (some 9) ProxyAdapterDom.new
            Sample.world).self
          (afterMount (Sample.flaky 0 Sample.mountOptions) 0 (some 9) ProxyAdapterDom.new
            Sample.world).world).world.env.dom.parentNode 2 = none := by
  refine ⟨by decide, by decide, by decide, by decide, by decide, by decide, by decide⟩

/-- C6 (amended, idempotent marker creation): on an adapter with no insertion point, and with
`anchor` absent or a child of `target`, the first `afterMount(target, anchor)` creates the marker (the
next node of the document) and inserts it into the host tree, exactly that one node: the
children of `target` become the old children with the marker put last (no anchor) or right
before `anchor`, the marker's parent is `target`, and no other child list or parent changes.
Every later call, whatever target and anchor it is given, leaves the adapter and the whole
world unchanged, so that `N ≥ 1` calls have the effect of the first call alone. -/
theorem afterMount_idempotent (inst : ProxyInstance X) (target : Node) (anchor : Option Node)
    (self : ProxyAdapterDom) (w : World X) (first : Run X)
    (hfirst : afterMount inst target anchor self w = first)
    (hnone : self.insertionPoint = none)
    (hanchor : ∀ a, anchor = some a → a ∈ w.env.dom.childNodes target) :
    first.outcome = .returned
      ∧ first.self = { self with insertionPoint := some w.env.dom.next }
      ∧ first.world.trace = w.trace
      ∧ (anchor = none →
          first.world.env.dom.childNodes target
            = w.env.dom.childNodes target ++ [w.env.dom.next])
      ∧ (∀ a, anchor = some a →
          ∃ pre post, w.env.dom.childNodes target = pre ++ a :: post ∧ a ∉ pre
            ∧ first.world.env.dom.childNodes target = pre ++ w.env.dom.next :: a :: post)
      ∧ (first.world.env.dom.childNodes target).length
          = (w.env.dom.childNodes target).length + 1
      ∧ (∀ n, n ≠ target → first.world.env.dom.childNodes n = w.env.dom.childNodes n)
      ∧ first.world.env.dom.parentNode w.env.dom.next = some target
      ∧ (∀ n, n ≠ w.env.dom.next →
          first.world.env.dom.parentNode n = w.env.dom.parentNode n)
      ∧ (∀ t a, afterMount inst t a first.self first.world = ⟨.returned, first.self, first.world⟩)
      ∧ (∀ later : List (Node × Option Node),
          afterMountCalls inst ((target, anchor) :: later) self w = first) := by
  have key : first.outcome = .returned
      ∧ first.self = { self with insertionPoint := some w.env.dom.next }
      ∧ first.world.trace = w.trace
      ∧ (anchor = none →
          first.world.env.dom.childNodes target
            = w.env.dom.childNodes target ++ [w.env.dom.next])
      ∧ (∀ a, anchor = some a →
          ∃ pre post, w.env.dom.childNodes target = pre ++ a :: post ∧ a ∉ pre
            ∧ first.world.env.dom.childNodes target = pre ++ w.env.dom.next :: a :: post)
      ∧ (first.world.env.dom.childNodes target).length
          = (w.env.dom.childNodes target).length + 1
      ∧ (∀ n, n ≠ target → first.world.env.dom.childNodes n = w.env.dom.childNodes n)
      ∧ first.world.env.dom.parentNode w.env.dom.next = some target
      ∧ (∀ n, n ≠ w.env.dom.next →
          first.world.env.dom.parentNode n = w.env.dom.parentNode n) := by
    subst hfirst
    cases anchor with
    | none =>
      rw [afterMount_append inst target self w hnone]
      refine ⟨rfl, rfl, rfl, ?_, ?_, ?_, ?_, ?_, ?_⟩
      · intro _; simp
      · intro a ha; cases ha
      · simp
      · intro n hn; simp [Function.update_noteq hn]
      · simp
      · intro n hn; simp [Function.update_noteq hn]
    | some a =>
      have ha : a ∈ w.env.dom.childNodes target := hanchor a rfl
      obtain ⟨pre, post, hsplit, hpre, hins⟩ := insertBeforeIn_split w.env.dom.next a _ ha
      rw [afterMount_before inst target a self w hnone ha]
      refine ⟨rfl, rfl, rfl, ?_, ?_, ?_, ?_, ?_, ?_⟩
      · intro h; cases h
      · intro b hb
        cases hb
        exact ⟨pre, post, hsplit, hpre, by simp [hins]⟩
      · simp only [Function.update_same, hins]
        rw [hsplit]
        simp
        omega
      · intro n hn; simp [Function.update_noteq hn]
      · simp
      · intro n hn; simp [Function.update_noteq hn]
  obtain ⟨hret, hself, htrace, hlast, hkids, hlen, hother, hparent, hparents⟩ := key
  have hset : first.self.insertionPoint = some w.env.dom.next := by rw [hself]
  refine ⟨hret, hself, htrace, hlast, hkids, hlen, hother, hparent, hparents, ?_, ?_⟩
  · intro t a
    exact afterMount_present inst t a first.self first.world _ hset
  · intro later
    simp only [afterMountCalls, hfirst, hret]
    rw [afterMountCalls_present inst later first.self first.world _ hset, ← hret]

/-- Witness of C6 (amended): three `afterMount` calls on the new sample adapter insert the one marker `2`
before the node `1` of the container `0`. -/
theorem afterMount_idempotent_witness :
    (afterMountCalls (Sample.flaky 0 Sample.mountOptions)
        [(0, some 1), (0, none), (5, some 9)] ProxyAdapterDom.new Sample.world).self.insertionPoint
        = some 2
      ∧ (afterMountCalls (Sample.flaky 0 Sample.mountOptions)
        [(0, some 1), (0, none), (5, some 9)] ProxyAdapterDom.new
          Sample.world).world.env.dom.childNodes 0 = [2, 1] := by
  have h := afterMount_idempotent (Sample.flaky 0 Sample.mountOptions) 0 (some 1)
    ProxyAdapterDom.new Sample.world _ rfl rfl
    (fun a ha => by cases ha; decide)
  rw [h.2.2.2.2.2.2.2.2.2.2 [(0, none), (5, some 9)]]
  exact ⟨rfl, rfl⟩

/-- When `doCreateComponent` returns, a component is live. -/
theorem doCreateComponent_returned (inst : ProxyInstance X) (options : Options)
    (restore : Snapshot) :
    ∀ (fuel : Nat) (self : ProxyAdapterDom) (w : World X),
      (doCreateComponent inst options restore fuel self w).outcome = .returned →
      ∃ cmp, (doCreateComponent inst options restore fuel self w).self.cmp = some cmp := by
  intro fuel
  induction fuel with
  | zero => intro self w h; simp [doCreateComponent] at h
  | succ fuel ih =>
    intro self w
    have hcatch : ∀ (err : Err) (self1 : ProxyAdapterDom) (w1 : World X),
        (catchBlock inst err (doCreateComponent inst options restore fuel) self1 w1).outcome
            = .returned →
        ∃ cmp, (catchBlock inst err (doCreateComponent inst options restore fuel) self1
          w1).self.cmp = some cmp := by
      intro err self1 w1
      rcases catchBlock_eq inst err (doCreateComponent inst options restore fuel) self1 w1
        with ⟨fatal, env2, _, heq⟩ | ⟨env2, _, heq⟩
      · rw [heq]; intro h; simp at h
      · rw [heq]; exact ih _ _
    rcases hcc : inst.createComponent options w.env with ⟨err | cmp, env⟩
    · have hrun : doCreateComponent inst options restore (fuel + 1) self w
          = catchBlock inst err (doCreateComponent inst options restore fuel) self
              ⟨env, w.trace ++ [Event.createComponent options]⟩ := by
        simp only [doCreateComponent, hcc]
      rw [hrun]
      exact hcatch _ _ _
    · by_cases htruthy : restore.truthy = true
      · rcases hrs : inst.restoreState cmp restore env with ⟨err | u, env1⟩
        · have hrun : doCreateComponent inst options restore (fuel + 1) self w
              = catchBlock inst err (doCreateComponent inst options restore fuel)
                  { self with cmp := some cmp }
                  ⟨env1, w.trace
                    ++ [Event.createComponent options, Event.restoreState cmp restore]⟩ := by
            simp [doCreateComponent, hcc, htruthy, hrs]
          rw [hrun]
          exact hcatch _ _ _
        · have hrun : doCreateComponent inst options restore (fuel + 1) self w
              = ⟨.returned, { self with cmp := some cmp },
                  ⟨env1, w.trace
                    ++ [Event.createComponent options, Event.restoreState cmp restore]⟩⟩ := by
            simp [doCreateComponent, hcc, htruthy, hrs]
          rw [hrun]
          exact fun _ => ⟨cmp, rfl⟩
      · have hrun : doCreateComponent inst options restore (fuel + 1) self w
            = ⟨.returned, { self with cmp := some cmp },
                ⟨env, w.trace ++ [Event.createComponent options]⟩⟩ := by
          simp [doCreateComponent, hcc, htruthy]
        rw [hrun]
        exact fun _ => ⟨cmp, rfl⟩

/-- C7 (missing insertion point raises): for every adapter without insertion point on which
`init()` completed with no `target` in `initialOptions`, a component is live and there is still
no insertion point; `rerender()` then throws the missing-insertion-point error before any
effect: both the adapter and the world (environment and trace, so no `$destroy` and no
`createComponent` call) are as `init()` left them. -/
theorem rerender_missing_insertion_point (inst : ProxyInstance X) (fuel later : Nat)
    (self : ProxyAdapterDom) (w : World X)
    (htarget : inst.initialOptions.target = none)
    (hnone : self.insertionPoint = none)
    (hinit : (init inst fuel self w).outcome = .returned) :
    (∃ cmp, (init inst fuel self w).self.cmp = some cmp)
      ∧ (init inst fuel self w).self.insertionPoint = none
      ∧ rerender inst later (init inst fuel self w).self (init inst fuel self w).world
        = ⟨.threw "Cannot rerender: Missing insertion point", (init inst fuel self w).self,
            (init inst fuel self w).world⟩ := by
  have hrun : init inst fuel self w
      = createComponent inst fuel none inst.initialOptions.anchor self w := by
    simp only [init, htarget]
    split <;> rfl
  rw [hrun] at hinit ⊢
  obtain ⟨cmp, hcmp⟩ : ∃ cmp,
      (createComponent inst fuel none inst.initialOptions.anchor self w).self.cmp = some cmp :=
    doCreateComponent_returned inst _ _ fuel self _ hinit
  have hip : (createComponent inst fuel none inst.initialOptions.anchor self w).self.insertionPoint
      = none :=
    ((doCreateComponent_trace inst _ _ fuel self _).1).trans hnone
  refine ⟨⟨cmp, hcmp⟩, hip, ?_⟩
  simp only [rerender, hcmp, hip, missingInsertionPoint]

/-- Witness of C7: the sample adapter initialised with no target. -/
theorem rerender_missing_insertion_point_witness :
    (rerender (Sample.flaky 0 Sample.detachedOptions) 1
        (init (Sample.flaky 0 Sample.detachedOptions) 1 ProxyAdapterDom.new Sample.world).self
        (init (Sample.flaky 0 Sample.detachedOptions) 1 ProxyAdapterDom.new
          Sample.world).world).outcome
        = .threw "Cannot rerender: Missing insertion point"
      ∧ (rerender (Sample.flaky 0 Sample.detachedOptions) 1
        (init (Sample.flaky 0 Sample.detachedOptions) 1 ProxyAdapterDom.new Sample.world).self
        (init (Sample.flaky 0 Sample.detachedOptions) 1 ProxyAdapterDom.new
          Sample.world).world).self = { cmp := some 100, insertionPoint := none } := by
  have h := (rerender_missing_insertion_point (Sample.flaky 0 Sample.detachedOptions) 1 1
    ProxyAdapterDom.new Sample.world rfl rfl rfl).2.2
  rw [h]
  exact ⟨rfl, rfl⟩

/-- After `dispose()` the adapter has neither a component nor an insertion point. -/
theorem dispose_clears (inst : ProxyInstance X) (self : ProxyAdapterDom) (w : World X) :
    (dispose inst self w).self = { cmp := none, insertionPoint := none } := by
  obtain ⟨cmp, ip⟩ := self
  cases cmp <;> cases ip <;> rfl

/-- C8 (stale rerender is a no-op): for every adapter, a `rerender()` after `dispose()` returns
normally; the only call it makes is the `console.log` of the stale-rerender message, so none of
`createComponent`, `captureState`, `rollback` is called; the live handle and the insertion
point are both `null` afterwards; and the environment, with the registry table in it, is
unchanged. -/
theorem rerender_after_dispose (inst : ProxyInstance X) (fuel : Nat) (self : ProxyAdapterDom)
    (w : World X) :
    (rerender inst fuel (dispose inst self w).self (dispose inst self w).world).outcome
        = .returned
      ∧ (rerender inst fuel (dispose inst self w).self (dispose inst self w).world).world.trace
        = (dispose inst self w).world.trace
          ++ [Event.log "Trying to rerender a destroyed component?"]
      ∧ (rerender inst fuel (dispose inst self w).self (dispose inst self w).world).self.cmp
        = none
      ∧ (rerender inst fuel (dispose inst self w).self
          (dispose inst self w).world).self.insertionPoint = none
      ∧ (rerender inst fuel (dispose inst self w).self
          (dispose inst self w).world).world.env.registry
        = (dispose inst self w).world.env.registry
      ∧ (rerender inst fuel (dispose inst self w).self (dispose inst self w).world).world.env
        = (dispose inst self w).world.env := by
  have hrun : rerender inst fuel (dispose inst self w).self (dispose inst self w).world
      = ⟨.returned, { cmp := none, insertionPoint := none },
          { (dispose inst self w).world with
            trace := (dispose inst self w).world.trace ++ [Event.log staleMessage] }⟩ := by
    simp only [rerender, dispose_clears]
  rw [hrun]
  exact ⟨rfl, rfl, rfl, rfl, rfl, rfl⟩

end ProxyAdapterDom

/-! ## The proxy adapter: teardown, reuse and lifecycle invariants -/

namespace ProxyAdapterDom

variable {X : Type}

/-- What `destroyComponent` returns, whatever its argument: the handle is cleared and the trace
gets the `$destroy` call of the live component, if there was one. -/
theorem destroyComponent_eq (inst : ProxyInstance X) (removeInsertionPoint : Bool)
    (self : ProxyAdapterDom) (w : World X) :
    destroyComponent inst removeInsertionPoint self w
      = ⟨.returned,
          { cmp := none
            insertionPoint := if removeInsertionPoint then none else self.insertionPoint },
          { env :=
              if removeInsertionPoint then
                { envAfterDestroy inst self w.env with
                  dom := removeElement self.insertionPoint (envAfterDestroy inst self w.env).dom }
              else envAfterDestroy inst self w.env
            trace :=
              match self.cmp with
              | some cmp => w.trace ++ [Event.destroy cmp]
              | none => w.trace }⟩ := by
  obtain ⟨cmp, ip⟩ := self
  cases cmp <;> cases ip <;> cases removeInsertionPoint <;>
    simp [destroyComponent, envAfterDestroy, removeElement]

/-- After `removeElement` a node has no parent, and it is no longer a child of the parent it
had. -/
theorem removeElement_detached (node : Node) (dom : Dom) :
    (removeElement (some node) dom).parentNode node = none
      ∧ ∀ parent, dom.parentNode node = some parent →
          node ∉ (removeElement (some node) dom).childNodes parent := by
  rcases hp : dom.parentNode node with _ | p
  · simp [removeElement, hp]
  · refine ⟨by simp [removeElement, hp, Dom.removeChild], ?_⟩
    intro parent hparent
    cases hparent
    simp [removeElement, hp, Dom.removeChild]

/-- C18, as stated, fails on the host tree: with `removeMarker` false the method still calls
`$destroy`, which changes the host tree.  Here `$destroy` takes the node `1` out of the
container `0`: the children of `0` are `[2, 1]` before `destroyComponent(false)` and `[2]`
after it, the marker `2` staying where it was. -/
theorem destroyComponent_host_tree_counterexample :
    Sample.mounted.self = { cmp := some 100, insertionPoint := some 2 }
      ∧ Sample.mounted.world.env.dom.childNodes 0 = [2, 1]
      ∧ (destroyComponent (Sample.unmounting Sample.mountOptions) false Sample.mounted.self
          Sample.mounted.world).world.env.dom.childNodes 0 = [2]
      ∧ (destroyComponent (Sample.unmounting Sample.mountOptions) false Sample.mounted.self
          Sample.mounted.world).world.env.dom.childNodes 0
        ≠ Sample.mounted.world.env.dom.childNodes 0
      ∧ (destroyComponent (Sample.unmounting Sample.mountOptions) false Sample.mounted.self
          Sample.mounted.world).self.insertionPoint = some 2 := by
  refine ⟨rfl, rfl, ?_, ?_, rfl⟩
  · decide
  · decide

/-- C18 (amended): for every adapter state, `destroyComponent(removeMarker)` returns with the
live handle `null`; it calls `$destroy` exactly once, on the live component, when there was
one, and makes no call otherwise.  When `removeMarker` is true the insertion point is cleared
and the marker is detached: it has no parent and is not a child of the parent it had.  When
`removeMarker` is false (or omitted) the insertion point is unchanged and the method makes no
change of its own to the host tree: the environment is the one `$destroy` left, and the one
before the call when there was no component.  `dispose()` is `destroyComponent(true)`. -/
theorem destroyComponent_postcondition (inst : ProxyInstance X) (removeInsertionPoint : Bool)
    (self : ProxyAdapterDom) (w : World X) :
    (destroyComponent inst removeInsertionPoint self w).outcome = .returned
      ∧ (destroyComponent inst removeInsertionPoint self w).self.cmp = none
      ∧ (∀ cmp, self.cmp = some cmp →
          (destroyComponent inst removeInsertionPoint self w).world.trace
            = w.trace ++ [Event.destroy cmp])
      ∧ (self.cmp = none →
          (destroyComponent inst removeInsertionPoint self w).world.trace = w.trace)
      ∧ (removeInsertionPoint = true →
          (destroyComponent inst removeInsertionPoint self w).self.insertionPoint = none
            ∧ ∀ marker, self.insertionPoint = some marker →
                (destroyComponent inst removeInsertionPoint self w).world.env.dom.parentNode
                    marker = none
                  ∧ ∀ parent,
                      (envAfterDestroy inst self w.env).dom.parentNode marker = some parent →
                      marker ∉ (destroyComponent inst removeInsertionPoint self
                        w).world.env.dom.childNodes parent)
      ∧ (removeInsertionPoint = false →
          (destroyComponent inst removeInsertionPoint self w).self.insertionPoint
              = self.insertionPoint
            ∧ (destroyComponent inst removeInsertionPoint self w).world.env
              = envAfterDestroy inst self w.env
            ∧ (∀ cmp, self.cmp = some cmp →
                (destroyComponent inst removeInsertionPoint self w).world.env
                  = inst.destroy cmp w.env)
            ∧ (self.cmp = none →
                (destroyComponent inst removeInsertionPoint self w).world.env = w.env))
      ∧ dispose inst self w = destroyComponent inst true self w := by
  rw [destroyComponent_eq]
  refine ⟨rfl, rfl, ?_, ?_, ?_, ?_, rfl⟩
  · intro cmp hcmp; simp [hcmp]
  · intro hcmp; simp [hcmp]
  · intro htrue
    subst htrue
    refine ⟨rfl, ?_⟩
    intro marker hip
    simp only [if_true, hip]
    exact removeElement_detached marker _
  · intro hfalse
    subst hfalse
    refine ⟨rfl, rfl, ?_, ?_⟩
    · intro cmp hcmp; simp [envAfterDestroy, hcmp]
    · intro hcmp; simp [envAfterDestroy, hcmp]

/-- Witness of C18 (amended): `dispose()` on the mounted sample adapter calls `$destroy` once and takes
the marker `2` out of the container `0`. -/
theorem destroyComponent_postcondition_witness :
    (destroyComponent (Sample.flaky 0 Sample.mountOptions) true Sample.mounted.self
        Sample.mounted.world).world.trace
        = Sample.mounted.world.trace ++ [Event.destroy 100]
      ∧ (destroyComponent (Sample.flaky 0 Sample.mountOptions) true Sample.mounted.self
        Sample.mounted.world).world.env.dom.parentNode 2 = none
      ∧ 2 ∉ (destroyComponent (Sample.flaky 0 Sample.mountOptions) true Sample.mounted.self
        Sample.mounted.world).world.env.dom.childNodes 0 :=
  have h := destroyComponent_postcondition (Sample.flaky 0 Sample.mountOptions) true
    Sample.mounted.self Sample.mounted.world
  ⟨h.2.2.1 100 rfl, ((h.2.2.2.2.1 rfl).2 2 rfl).1, ((h.2.2.2.2.1 rfl).2 2 rfl).2 0 rfl⟩

end ProxyAdapterDom

namespace ProxyAdapterDom

variable {X : Type}

/-- The first `afterMount` sets the insertion point to the comment node it creates, whether or
not the insertion into the host tree goes through. -/
theorem afterMount_sets (inst : ProxyInstance X) (target : Node) (anchor : Option Node)
    (self : ProxyAdapterDom) (w : World X) (hnone : self.insertionPoint = none) :
    (afterMount inst target anchor self w).self.insertionPoint = some w.env.dom.next := by
  simp only [afterMount, hnone]
  split <;> rfl

/-- The method `createComponent` never writes the insertion point. -/
theorem createComponent_insertionPoint (inst : ProxyInstance X) (fuel : Nat)
    (target anchor : Option Node) (self : ProxyAdapterDom) (w : World X) :
    (createComponent inst fuel target anchor self w).self.insertionPoint
      = self.insertionPoint :=
  (doCreateComponent_trace inst _ _ fuel self _).1

/-- C19, as stated, fails: `init()` has no guard.  On the mounted sample adapter, `init()`
after `dispose()` returns normally, having called the collaborator `createComponent`; the
component `101` is live and the new marker `3` is set. -/
theorem init_after_dispose_counterexample :
    Sample.disposed.self = { cmp := none, insertionPoint := none }
      ∧ (init (Sample.flaky 0 Sample.mountOptions) 1 Sample.disposed.self
          Sample.disposed.world).outcome = .returned
      ∧ (init (Sample.flaky 0 Sample.mountOptions) 1 Sample.disposed.self
          Sample.disposed.world).world.trace
        = Sample.disposed.world.trace
          ++ [Event.captureState none, Event.createComponent Sample.mountOptions]
      ∧ (init (Sample.flaky 0 Sample.mountOptions) 1 Sample.disposed.self
          Sample.disposed.world).self = { cmp := some 101, insertionPoint := some 3 } :=
  ⟨rfl, rfl, rfl, rfl⟩

/-- The method `afterMount` makes no collaborator call and does not touch the live handle. -/
theorem afterMount_frame (inst : ProxyInstance X) (target : Node) (anchor : Option Node)
    (self : ProxyAdapterDom) (w : World X) :
    (afterMount inst target anchor self w).world.trace = w.trace
      ∧ (afterMount inst target anchor self w).self.cmp = self.cmp := by
  rcases hip : self.insertionPoint with _ | marker
  · simp only [afterMount, hip]
    split <;> exact ⟨rfl, rfl⟩
  · simp [afterMount, hip]

/-- Without a target, `init()` is its create step. -/
theorem init_without_target (inst : ProxyInstance X) (fuel : Nat) (self : ProxyAdapterDom)
    (w : World X) (htarget : inst.initialOptions.target = none) :
    init inst fuel self w
      = createComponent inst fuel none inst.initialOptions.anchor self w := by
  simp only [init, htarget]
  split <;> rfl

/-- With a target, `init()` is its create step, followed by `afterMount` when that step
returned. -/
theorem init_with_target (inst : ProxyInstance X) (fuel : Nat) (self : ProxyAdapterDom)
    (w : World X) (t : Node) (htarget : inst.initialOptions.target = some t) :
    init inst fuel self w
      = if (createComponent inst fuel (some t) inst.initialOptions.anchor self w).outcome
            = .returned then
          afterMount inst t inst.initialOptions.anchor
            (createComponent inst fuel (some t) inst.initialOptions.anchor self w).self
            (createComponent inst fuel (some t) inst.initialOptions.anchor self w).world
        else createComponent inst fuel (some t) inst.initialOptions.anchor self w := by
  simp only [init, htarget]
  split <;> simp_all

/-- What `init()` adds to the trace is what its create step adds, and `init()` returns only
when its create step returned. -/
theorem init_trace (inst : ProxyInstance X) (fuel : Nat) (self : ProxyAdapterDom)
    (w : World X) :
    (init inst fuel self w).world.trace
        = (createComponent inst fuel inst.initialOptions.target inst.initialOptions.anchor
            self w).world.trace
      ∧ ((init inst fuel self w).outcome = .returned →
          (createComponent inst fuel inst.initialOptions.target inst.initialOptions.anchor
            self w).outcome = .returned)
      ∧ (init inst fuel self w).self.cmp
        = (createComponent inst fuel inst.initialOptions.target inst.initialOptions.anchor
            self w).self.cmp := by
  rcases htarget : inst.initialOptions.target with _ | t
  · rw [init_without_target inst fuel self w htarget]
    exact ⟨rfl, fun h => h, rfl⟩
  · rw [init_with_target inst fuel self w t htarget]
    by_cases hret : (createComponent inst fuel (some t) inst.initialOptions.anchor self
        w).outcome = .returned
    · rw [if_pos hret]
      exact ⟨(afterMount_frame inst t _ _ _).1, fun _ => hret,
        (afterMount_frame inst t _ _ _).2⟩
    · rw [if_neg hret]
      exact ⟨rfl, fun h => h, rfl⟩

/-- C19 (amended): disposal is not guarded.  For every adapter on which `dispose()` has been
called, a later `init()` raises no error of its own and runs exactly as on a newly constructed
adapter: it calls `captureState(null)` and then the collaborator `createComponent` with
`initialOptions`, and when it returns a component is live and, with a target in
`initialOptions`, a new marker is set. -/
theorem init_after_dispose (inst : ProxyInstance X) (fuel : Nat) (self : ProxyAdapterDom)
    (w : World X) :
    init inst fuel (dispose inst self w).self (dispose inst self w).world
        = init inst fuel ProxyAdapterDom.new (dispose inst self w).world
      ∧ (0 < fuel →
          ∃ evs, (init inst fuel (dispose inst self w).self (dispose inst self w).world).world.trace
            = (dispose inst self w).world.trace
              ++ Event.captureState none :: Event.createComponent inst.initialOptions :: evs)
      ∧ ((init inst fuel (dispose inst self w).self (dispose inst self w).world).outcome
            = .returned →
          (∃ cmp, (init inst fuel (dispose inst self w).self
              (dispose inst self w).world).self.cmp = some cmp)
            ∧ (inst.initialOptions.target ≠ none →
                ∃ marker, (init inst fuel (dispose inst self w).self
                  (dispose inst self w).world).self.insertionPoint = some marker)) := by
  rw [dispose_clears]
  refine ⟨rfl, ?_, ?_⟩
  · intro hfuel
    obtain ⟨_, evs, htr, _, _, _, hfirst⟩ :=
      doCreateComponent_trace inst inst.initialOptions
        (inst.captureState none (dispose inst self w).world.env).1 fuel
        { cmp := none, insertionPoint := none }
        ⟨(inst.captureState none (dispose inst self w).world.env).2,
          (dispose inst self w).world.trace ++ [Event.captureState none]⟩
    obtain ⟨tl, htl⟩ := hfirst hfuel
    refine ⟨tl, ?_⟩
    rw [(init_trace inst fuel _ _).1]
    simp only [createComponent]
    rw [htr, htl]
    simp
  · intro hret
    have hcreated := (init_trace inst fuel _ _).2.1 hret
    obtain ⟨cmp, hcmp⟩ : ∃ cmp, (createComponent inst fuel inst.initialOptions.target
        inst.initialOptions.anchor { cmp := none, insertionPoint := none }
        (dispose inst self w).world).self.cmp = some cmp :=
      doCreateComponent_returned inst _ _ fuel _ _ hcreated
    refine ⟨⟨cmp, by rw [(init_trace inst fuel _ _).2.2]; exact hcmp⟩, ?_⟩
    intro htarget
    rcases ht : inst.initialOptions.target with _ | t
    · exact absurd ht htarget
    · rw [ht] at hcreated
      rw [init_with_target inst fuel _ _ t ht, if_pos hcreated]
      exact ⟨_, afterMount_sets inst t _ _ _
        (createComponent_insertionPoint inst fuel (some t) _ _ _)⟩

/-- Witness of C19 (amended): `init()` on the disposed sample adapter. -/
theorem init_after_dispose_witness :
    (∃ cmp, (init (Sample.flaky 0 Sample.mountOptions) 1
        (dispose (Sample.flaky 0 Sample.mountOptions) Sample.mounted.self
          Sample.mounted.world).self
        (dispose (Sample.flaky 0 Sample.mountOptions) Sample.mounted.self
          Sample.mounted.world).world).self.cmp = some cmp)
      ∧ ∃ marker, (init (Sample.flaky 0 Sample.mountOptions) 1
        (dispose (Sample.flaky 0 Sample.mountOptions) Sample.mounted.self
          Sample.mounted.world).self
        (dispose (Sample.flaky 0 Sample.mountOptions) Sample.mounted.self
          Sample.mounted.world).world).self.insertionPoint = some marker :=
  have h := (init_after_dispose (Sample.flaky 0 Sample.mountOptions) 1 Sample.mounted.self
    Sample.mounted.world).2.2 rfl
  ⟨h.1, h.2 (by decide)⟩

end ProxyAdapterDom

namespace ProxyAdapterDom

variable {X : Type}

/-- A node that is at the same place in two environments, and in the second and a third, is at
the same place in the first and the third. -/
theorem SamePlace.trans {node : Node} {a b c : Env X} (hab : SamePlace node a b)
    (hbc : SamePlace node b c) : SamePlace node a c :=
  ⟨hbc.1.trans hab.1, fun parent => (hbc.2 parent).trans (hab.2 parent)⟩

/-- When every attempt fails and the last `rollback` re-raises, `doCreateComponent` with enough
fuel throws the error of that `rollback`, after exactly the failed attempts; the adapter is as
it was. -/
theorem doCreateComponent_fatal (inst : ProxyInstance X) (options : Options)
    (restore : Snapshot) {env last : Env X} {errs : List Err} {fatal : Err}
    (hattempts : FatalAttempts inst options env errs fatal last) :
    ∀ (fuel : Nat) (self : ProxyAdapterDom) (trace : List Event), errs.length ≤ fuel →
      doCreateComponent inst options restore fuel self ⟨env, trace⟩
        = ⟨.threw fatal, self, ⟨last, trace ++ failedAttempts options errs⟩⟩ := by
  induction hattempts with
  | @fatal env env1 last err fatal hthrow hfatal =>
    intro fuel self trace hfuel
    obtain ⟨fuel, rfl⟩ : ∃ n, fuel = n + 1 := ⟨fuel - 1, by simp at hfuel; omega⟩
    simp only [doCreateComponent, hthrow, catchBlock, hfatal, failedAttempts]
    simp
  | @retry env env1 env2 last err fatal errs hthrow hreturn _ ih =>
    intro fuel self trace hfuel
    obtain ⟨fuel, rfl⟩ : ∃ n, fuel = n + 1 := ⟨fuel - 1, by simp at hfuel; omega⟩
    simp only [doCreateComponent, hthrow, catchBlock, hreturn]
    rw [ih fuel self _ (by simpa using hfuel)]
    simp [failedAttempts]

/-- Collaborators that do not move a node leave it in place over a run of failed attempts. -/
theorem FatalAttempts.samePlace {inst : ProxyInstance X} {options : Options} {node : Node}
    (hleaves : LeavesNode inst node) {env last : Env X} {errs : List Err} {fatal : Err}
    (hattempts : FatalAttempts inst options env errs fatal last) : SamePlace node env last := by
  induction hattempts with
  | @fatal env env1 last err fatal hthrow hfatal =>
    have h1 := hleaves.2.2.1 options env
    rw [hthrow] at h1
    have h2 := hleaves.2.2.2 err env1
    rw [hfatal] at h2
    exact h1.trans h2
  | @retry env env1 env2 last err fatal errs hthrow hreturn _ ih =>
    have h1 := hleaves.2.2.1 options env
    rw [hthrow] at h1
    have h2 := hleaves.2.2.2 err env1
    rw [hreturn] at h2
    exact (h1.trans h2).trans ih

/-- C20, as stated, fails when an attempt gets as far as `restoreState`: here the first attempt
of the rerender creates the component `101` and fails in `restoreState`, `rollback` returns,
the second attempt fails in the collaborator `createComponent`, and `rollback` re-raises.  The
error propagates, but the live handle is `101`, not `null`, and a later `rerender()` does not
take the no-component guard: it destroys `101` and calls the collaborators again. -/
theorem rerender_fatal_keeps_handle_counterexample :
    (rerender (Sample.relapsing Sample.mountOptions) 2 Sample.mounted.self
        Sample.mounted.world).outcome = .threw "broken"
      ∧ (rerender (Sample.relapsing Sample.mountOptions) 2 Sample.mounted.self
        Sample.mounted.world).world.trace
        = Sample.mounted.world.trace
          ++ [Event.destroy 100, Event.captureState none,
              Event.createComponent
                { target := some 0, anchor := some 2, rest := [("props", "p")] },
              Event.restoreState 101 (.object []), Event.rollback "cannot restore",
              Event.createComponent
                { target := some 0, anchor := some 2, rest := [("props", "p")] },
              Event.rollback "broken"]
      ∧ (rerender (Sample.relapsing Sample.mountOptions) 2 Sample.mounted.self
        Sample.mounted.world).self = { cmp := some 101, insertionPoint := some 2 }
      ∧ (rerender (Sample.relapsing Sample.mountOptions) 2
          (rerender (Sample.relapsing Sample.mountOptions) 2 Sample.mounted.self
            Sample.mounted.world).self
          (rerender (Sample.relapsing Sample.mountOptions) 2 Sample.mounted.self
            Sample.mounted.world).world).outcome = .threw "broken"
      ∧ Event.destroy 101
        ∈ (rerender (Sample.relapsing Sample.mountOptions) 2
          (rerender (Sample.relapsing Sample.mountOptions) 2 Sample.mounted.self
            Sample.mounted.world).self
          (rerender (Sample.relapsing Sample.mountOptions) 2 Sample.mounted.self
            Sample.mounted.world).world).world.trace := by
  refine ⟨by decide, by decide, by decide, by decide, by decide⟩

/-- C20 (amended, rerender is not atomic on fatal failure): for every adapter with a live
component and an insertion point, when during `rerender()` every attempt fails in the
collaborator `createComponent`, which throws (the errors `errs`), and `rollback` re-raises (on
the last of them), the error of
`rollback` propagates to the caller, given fuel for the attempts; the old component has been
destroyed, the live handle is `null`, the insertion point is still set, and the adapter has
made no host-tree call, so that the marker is where it was in the host tree as long as the
collaborators do not move it.  Every later `rerender()` on that adapter, in whatever world,
logs and returns normally without calling a collaborator. -/
theorem rerender_fatal_not_atomic (inst : ProxyInstance X) (fuel : Nat)
    (self : ProxyAdapterDom) (w : World X) (old : Handle) (marker : Node) (errs : List Err)
    (fatal : Err) (last : Env X)
    (hcmp : self.cmp = some old) (hip : self.insertionPoint = some marker)
    (hattempts : FatalAttempts inst
        { target := (inst.destroy old w.env).dom.parentNode marker, anchor := some marker,
          rest := inst.initialOptions.rest }
        (inst.captureState none (inst.destroy old w.env)).2 errs fatal last)
    (hfuel : errs.length ≤ fuel) :
    rerender inst fuel self w
        = ⟨.threw fatal, { cmp := none, insertionPoint := some marker },
            ⟨last, w.trace
              ++ Event.destroy old :: Event.captureState none
                :: failedAttempts
                    { target := (inst.destroy old w.env).dom.parentNode marker,
                      anchor := some marker, rest := inst.initialOptions.rest } errs⟩⟩
      ∧ (LeavesNode inst marker → SamePlace marker w.env (rerender inst fuel self w).world.env)
      ∧ ∀ (later : Nat) (w2 : World X),
          rerender inst later (rerender inst fuel self w).self w2
            = ⟨.returned, (rerender inst fuel self w).self,
                { w2 with
                  trace := w2.trace ++ [Event.log "Trying to rerender a destroyed component?"] }⟩ := by
  have hrun : rerender inst fuel self w
      = ⟨.threw fatal, { cmp := none, insertionPoint := some marker },
          ⟨last, w.trace
            ++ Event.destroy old :: Event.captureState none
              :: failedAttempts
                  { target := (inst.destroy old w.env).dom.parentNode marker,
                    anchor := some marker, rest := inst.initialOptions.rest } errs⟩⟩ := by
    rw [rerender_eq inst fuel self w old marker hcmp hip,
      doCreateComponent_fatal inst _ _ hattempts fuel _ _ hfuel]
    simp
  refine ⟨hrun, ?_, ?_⟩
  · intro hleaves
    rw [hrun]
    exact ((hleaves.1 old w.env).trans (hleaves.2.1 none _)).trans (hattempts.samePlace hleaves)
  · intro later w2
    rw [hrun]
    simp [rerender, staleMessage]

/-- Witness of C20 (amended): the mounted sample adapter is rerendered with collaborators whose
`createComponent` throws and whose `rollback` re-raises. -/
theorem rerender_fatal_not_atomic_witness :
    (rerender (Sample.fatal true Sample.mountOptions) 1 Sample.mounted.self
        Sample.mounted.world).outcome = .threw "broken"
      ∧ (rerender (Sample.fatal true Sample.mountOptions) 1 Sample.mounted.self
        Sample.mounted.world).self = { cmp := none, insertionPoint := some 2 }
      ∧ (rerender (Sample.fatal true Sample.mountOptions) 1 Sample.mounted.self
        Sample.mounted.world).world.env.dom.parentNode 2 = some 0 := by
  have h := rerender_fatal_not_atomic (Sample.fatal true Sample.mountOptions) 1
    Sample.mounted.self Sample.mounted.world 100 2 ["broken"] "broken"
    Sample.mounted.world.env rfl rfl (FatalAttempts.fatal rfl rfl) (by decide)
  have hleaves : LeavesNode (Sample.fatal true Sample.mountOptions) 2 :=
    ⟨fun _ _ => ⟨rfl, fun _ => Iff.rfl⟩, fun _ _ => ⟨rfl, fun _ => Iff.rfl⟩,
      fun _ env => by
        simp only [Sample.fatal, if_true]
        exact ⟨rfl, fun _ => Iff.rfl⟩,
      fun _ _ => ⟨rfl, fun _ => Iff.rfl⟩⟩
  refine ⟨by rw [h.1], by rw [h.1], ?_⟩
  rw [(h.2.1 hleaves).1]
  rfl

end ProxyAdapterDom

namespace ProxyAdapterDom

variable {X : Type}

/-- The method `rerender` never writes the insertion point. -/
theorem rerender_insertionPoint (inst : ProxyInstance X) (fuel : Nat) (self : ProxyAdapterDom)
    (w : World X) : (rerender inst fuel self w).self.insertionPoint = self.insertionPoint := by
  rcases hcmp : self.cmp with _ | old
  · simp only [rerender, hcmp]
  · rcases hip : self.insertionPoint with _ | marker
    · simp only [rerender, hcmp, hip]
    · rw [rerender_eq inst fuel self w old marker hcmp hip]
      exact (doCreateComponent_trace inst _ _ fuel _ _).1

/-- After `init()` the insertion point is set exactly when it was set before or `init()` has a
target and its create step returned. -/
theorem init_insertionPoint (inst : ProxyInstance X) (fuel : Nat) (self : ProxyAdapterDom)
    (w : World X) :
    (init inst fuel self w).self.insertionPoint.isSome
      = (self.insertionPoint.isSome
        || (inst.initialOptions.target.isSome
          && decide ((createComponent inst fuel inst.initialOptions.target
                inst.initialOptions.anchor self w).outcome = .returned))) := by
  rcases htarget : inst.initialOptions.target with _ | t
  · rw [init_without_target inst fuel self w htarget, createComponent_insertionPoint]
    simp
  · rw [init_with_target inst fuel self w t htarget]
    have hkeep := createComponent_insertionPoint inst fuel (some t) inst.initialOptions.anchor
      self w
    by_cases hret : (createComponent inst fuel (some t) inst.initialOptions.anchor self
        w).outcome = .returned
    · rw [if_pos hret]
      rcases hip : self.insertionPoint with _ | marker
      · rw [afterMount_sets inst t _ _ _ (hkeep.trans hip)]
        simp [hret]
      · rw [afterMount_present inst t _ _ _ marker (hkeep.trans hip), hkeep, hip]
        simp
    · rw [if_neg hret, hkeep]
      simp [hret]

/-- One call keeps the insertion point set exactly when the create step of some `init()` with
a target has returned since the last `dispose()`. -/
theorem Lifecycle.step_marker (inst : ProxyInstance X) (l : Lifecycle X) (call : Call)
    (hinv : l.self.insertionPoint.isSome = l.mountedSince) :
    (l.step inst call).self.insertionPoint.isSome = (l.step inst call).mountedSince := by
  cases call with
  | init fuel =>
    simp only [Lifecycle.step]
    rw [init_insertionPoint, hinv]
  | rerender fuel =>
    simp only [Lifecycle.step]
    rw [rerender_insertionPoint, hinv]
  | dispose =>
    simp only [Lifecycle.step]
    rw [dispose_clears]
    rfl

/-- The invariant of `Lifecycle.step_marker` along a sequence of calls. -/
theorem Lifecycle.run_marker (inst : ProxyInstance X) (calls : List Call) :
    ∀ l : Lifecycle X, l.self.insertionPoint.isSome = l.mountedSince →
      (Lifecycle.run inst calls l).self.insertionPoint.isSome
        = (Lifecycle.run inst calls l).mountedSince := by
  induction calls with
  | nil => intro l h; exact h
  | cons call calls ih =>
    intro l h
    exact ih (l.step inst call) (Lifecycle.step_marker inst l call h)

/-- C16, as stated, fails: `init()` can be called again after `dispose()`.  After `init()`,
`dispose()`, `init()` on the sample adapter, the insertion point is the marker `3`, although
the adapter has been disposed. -/
theorem marker_after_dispose_counterexample :
    (Lifecycle.run (Sample.flaky 0 Sample.mountOptions) [Call.init 1, Call.dispose, Call.init 1]
        (Lifecycle.start Sample.world)).self.insertionPoint = some 3
      ∧ (Lifecycle.run (Sample.flaky 0 Sample.mountOptions)
        [Call.init 1, Call.dispose, Call.init 1] (Lifecycle.start Sample.world)).completedInit
        = true
      ∧ (Lifecycle.run (Sample.flaky 0 Sample.mountOptions)
        [Call.init 1, Call.dispose, Call.init 1] (Lifecycle.start Sample.world)).disposed
        = true :=
  ⟨rfl, rfl, rfl⟩

/-- C16 (amended): in every state reachable from a new adapter by any sequence of `init()`,
`rerender()` and `dispose()` calls, the insertion point is non-null if and only if, since the
last `dispose()` (since construction when there was none), some `init()` with a target has got
its component created, which is when `init()` goes on to `afterMount`; and every `init()` with
a target that returns leaves the insertion point non-null. -/
theorem marker_invariant (inst : ProxyInstance X) (calls : List Call) (w : World X) :
    ((Lifecycle.run inst calls (Lifecycle.start w)).self.insertionPoint ≠ none
        ↔ (Lifecycle.run inst calls (Lifecycle.start w)).mountedSince = true)
      ∧ ∀ (fuel : Nat) (self : ProxyAdapterDom) (w1 : World X),
          inst.initialOptions.target ≠ none →
          (init inst fuel self w1).outcome = .returned →
          (init inst fuel self w1).self.insertionPoint ≠ none := by
  refine ⟨?_, ?_⟩
  · have h := Lifecycle.run_marker inst calls (Lifecycle.start w) rfl
    rw [← h, Option.isSome_iff_ne_none]
  · intro fuel self w1 htarget hret
    have hcreated := (init_trace inst fuel self w1).2.1 hret
    have h := init_insertionPoint inst fuel self w1
    rw [← Option.isSome_iff_ne_none] at htarget ⊢
    rw [h, htarget]
    simp [hcreated]

/-- Witness of C16 (amended): after `init()`, `rerender()`, `dispose()`, `rerender()` the
sample adapter has no insertion point, and no `init()` has created a component since the
`dispose()`. -/
theorem marker_invariant_witness :
    (Lifecycle.run (Sample.flaky 0 Sample.mountOptions)
        [Call.init 1, Call.rerender 1, Call.dispose, Call.rerender 1]
        (Lifecycle.start Sample.world)).mountedSince = false
      ∧ ¬ (Lifecycle.run (Sample.flaky 0 Sample.mountOptions)
        [Call.init 1, Call.rerender 1, Call.dispose, Call.rerender 1]
        (Lifecycle.start Sample.world)).self.insertionPoint ≠ none := by
  refine ⟨rfl, ?_⟩
  rw [(marker_invariant (Sample.flaky 0 Sample.mountOptions)
    [Call.init 1, Call.rerender 1, Call.dispose, Call.rerender 1] Sample.world).1]
  decide

/-- C15, evaluated on the code at its failing input: with collaborators whose `restoreState`
throws on the first component and whose `rollback` returns, `init()` creates the component
`100`, retries after the failed `restoreState` and replaces it with the component `101`;
`dispose()` then calls `$destroy` on `101` only.  The component `100`, returned by the
collaborator `createComponent`, is replaced and never destroyed. -/
theorem retry_leaks_component :
    ((Sample.leaky Sample.mountOptions).createComponent Sample.mountOptions Sample.env).1
        = .ok 100
      ∧ (Lifecycle.run (Sample.leaky Sample.mountOptions) [Call.init 2, Call.dispose]
          (Lifecycle.start Sample.world)).world.trace
        = [Event.captureState none,
            Event.createComponent Sample.mountOptions,
            Event.restoreState 100 (.object []),
            Event.rollback "cannot restore",
            Event.createComponent Sample.mountOptions,
            Event.restoreState 101 (.object []),
            Event.destroy 101]
      ∧ Event.destroy 100
        ∉ (Lifecycle.run (Sample.leaky Sample.mountOptions) [Call.init 2, Call.dispose]
          (Lifecycle.start Sample.world)).world.trace
      ∧ (Lifecycle.run (Sample.leaky Sample.mountOptions) [Call.init 2, Call.dispose]
          (Lifecycle.start Sample.world)).self = { cmp := none, insertionPoint := none } := by
  have htrace : (Lifecycle.run (Sample.leaky Sample.mountOptions) [Call.init 2, Call.dispose]
      (Lifecycle.start Sample.world)).world.trace
      = [Event.captureState none,
          Event.createComponent Sample.mountOptions,
          Event.restoreState 100 (.object []),
          Event.rollback "cannot restore",
          Event.createComponent Sample.mountOptions,
          Event.restoreState 101 (.object []),
          Event.destroy 101] := rfl
  refine ⟨rfl, htrace, ?_, rfl⟩
  rw [htrace]
  decide

end ProxyAdapterDom
